import Mathlib

/-!
Verification model of the bucketed cuckoo hash table from `cuckoo_table.hpp`
(map variant, C++ namespace `cuckoo`: 64-bit keys and values, 4 slots per
bucket) and `cuckoo_set.hpp` (set variant, C++ namespace `cuckoo_set`:
32-bit keys, 8 slots per bucket, no values).

Modelling conventions:
- machine integers (`uint64_t`, `uint32_t`, `size_t`) are `Nat`, with an
  explicit `% 2 ^ 64` wherever the C++ arithmetic can wrap (the `sz_`
  counter, the rotating displacement counter, `next_pow2`); bitwise
  operators `&&&`, `|||`, `^^^`, `>>>` on `Nat` agree with the C++
  operators on in-range values and never overflow;
- a bucket's parallel arrays `key_slots` / `value_slots` are fused into a
  single `List (Nat × V)` of slots; the set variant instantiates
  `V := Unit` (it stores no payload);
- the two table classes share all algorithmic code up to the payload, the
  sentinel and the slot count, so the table operations are defined once,
  generic in the value type `V`, the sentinel `NULLK` and the slot count
  `SLOTS`; `cuckoo.insert` / `cuckoo_set.insert` below instantiate them
  exactly as the two C++ templates do;
- C++ exceptions (`throw` on duplicate key or on exceeding the insertion
  depth) are modelled by returning the table state reached at the throw
  together with a result tag, since the C++ object keeps its mutated state
  when an exception propagates;
- the hash functor is an arbitrary pure function `Nat → Nat` carried in the
  table state (the C++ `Hash` template parameter); the allocator strategy
  and the alignment check are memory-layout concerns with no behavioural
  content at this level and are not modelled;
- the process-wide rotating victim counter (`get_random_displace_idx`'s
  `static size_t curr_idx`) is carried in the table state as field `ctr`.
-/

set_option maxRecDepth 40000

namespace cuckoo

/-- `NULL_KEY = (KeyT)-1` for `KeyT = uint64_t`. -/
def NULL_KEY : Nat := 2 ^ 64 - 1

/-- `NULL_VALUE = (ValueT)-1` for `ValueT = uint64_t`. -/
def NULL_VALUE : Nat := 2 ^ 64 - 1

/-- `SLOTS_PER_BUCKET` of the map variant. -/
def SLOTS_PER_BUCKET : Nat := 4

/-- `MAX_LOOKUP_BATCH_SZ = 64 / sizeof(KeyT)` for the map variant. -/
def MAX_LOOKUP_BATCH_SZ : Nat := 8

/-- `MAX_INSERT_DEPTH`, the displacement-walk depth cap (both variants). -/
def MAX_INSERT_DEPTH : Nat := 256

/-- Table state: the hash strategy, `num_buckets_`, the bucket array
(each bucket a list of slots, one slot being a key with its payload),
the size counter `sz_` and the process-wide rotating victim counter. -/
structure Table (V : Type) where
  hash : Nat → Nat
  nb : Nat
  buckets : List (List (Nat × V))
  sz : Nat
  ctr : Nat

/-- The bucket `buckets_[i]`. -/
def bucketAt (t : Table V) (i : Nat) : List (Nat × V) :=
  t.buckets.getD i []

/-- The `key_slots` array of bucket `i`. -/
def bkeys (t : Table V) (i : Nat) : List Nat :=
  (bucketAt t i).map Prod.fst

/-- `get_bucket_id(h) = h & bucket_bitmask_` with
`bucket_bitmask_ = num_buckets_ - 1`. -/
def get_bucket_id (t : Table V) (h : Nat) : Nat :=
  h &&& (t.nb - 1)

/-- `get_other_bucket_id(h, k) = hash_fn_(h ^ k) & bucket_bitmask_`. -/
def get_other_bucket_id (t : Table V) (h k : Nat) : Nat :=
  t.hash (h ^^^ k) &&& (t.nb - 1)

/-- The primary home bucket of a key. -/
def bucket1 (t : Table V) (k : Nat) : Nat :=
  get_bucket_id t (t.hash k)

/-- The secondary home bucket of a key. -/
def bucket2 (t : Table V) (k : Nat) : Nat :=
  get_other_bucket_id t (t.hash k) k

/-- `Bucket::find`: linear scan of `key_slots`, index of the first slot
whose key equals the probe key (the returned iterator's `slot_idx_`),
`none` for the null iterator. -/
def kfind (key : Nat) : List Nat → Option Nat
  | [] => none
  | k :: ks => if k = key then some 0 else (kfind key ks).map (fun i => i + 1)

/-- Result of `Bucket::insert`: wrote the key into an empty slot and
returned `true` (`ok`, with the new slot list); threw
`"tried to insert existing key"` (`dup`); or returned `false` with the
bucket unchanged (`full`). -/
inductive BRes (V : Type) where
  | ok (b : List (Nat × V))
  | dup
  | full
deriving DecidableEq

/-- `Bucket::insert`: scan the slots in index order; at the first empty
slot write `(key, value)` and succeed; if the key is met first, throw;
if the scan runs out, report the bucket full. -/
def binsert (NULLK key : Nat) (value : V) : List (Nat × V) → BRes V
  | [] => .full
  | s :: rest =>
    if s.1 = NULLK then .ok ((key, value) :: rest)
    else if s.1 = key then .dup
    else
      match binsert NULLK key value rest with
      | .ok r => .ok (s :: r)
      | .dup => .dup
      | .full => .full

/-- `Bucket::displace_insert` at a given victim index: read the victim
slot, overwrite it with `(key, value)`, return the evicted slot and the
new slot list. -/
def bdisplace (key : Nat) (value : V) : Nat → List (Nat × V) → (Nat × V) × List (Nat × V)
  | _, [] => ((key, value), [])
  | 0, s :: rest => (s, (key, value) :: rest)
  | n + 1, s :: rest =>
    let r := bdisplace key value n rest
    (r.1, s :: r.2)

/-- Table-level outcome of `insert`: normal return (`ok`), propagated
duplicate-key exception (`dup`), or propagated depth-cap exception
(`depthFail`). -/
inductive TRes where
  | ok
  | dup
  | depthFail
deriving DecidableEq

/-- Body of `cuckoo_table::displace_insert`, with the bounded recursion
realised structurally on a fuel argument (the fuel is the remaining
allowance `MAX_INSERT_DEPTH - curr_depth`; see
`displace_insert_unfold`).  Each step increments the rotating victim
counter, displaces the carried key into the current bucket, recomputes
the evicted tenant's two home buckets, reinserts it into the other home
or recurses there. -/
def displaceInsertGo (SLOTS NULLK : Nat) :
    Nat → Table V → Nat → Nat → V → Nat → Table V × TRes
  | 0, t, _, _, _, _ => (t, .depthFail)
  | fuel + 1, t, bucket_id, key, value, curr_depth =>
    if MAX_INSERT_DEPTH ≤ curr_depth then (t, .depthFail)
    else
      let c := (t.ctr + 1) % 2 ^ 64
      let disp_idx := c &&& (SLOTS - 1)
      let t1 : Table V := { t with ctr := c }
      let dr := bdisplace key value disp_idx (bucketAt t1 bucket_id)
      let displaced_slot := dr.1
      let t2 : Table V := { t1 with buckets := t1.buckets.set bucket_id dr.2 }
      let hash := t2.hash displaced_slot.1
      let bucket_id1 := get_bucket_id t2 hash
      let bucket_id2 := get_other_bucket_id t2 hash displaced_slot.1
      let nxt_bucket_id := if bucket_id1 = bucket_id then bucket_id2 else bucket_id1
      match binsert NULLK displaced_slot.1 displaced_slot.2 (bucketAt t2 nxt_bucket_id) with
      | .ok b1 => ({ t2 with buckets := t2.buckets.set nxt_bucket_id b1 }, .ok)
      | .dup => (t2, .dup)
      | .full =>
        displaceInsertGo SLOTS NULLK fuel t2 nxt_bucket_id displaced_slot.1 displaced_slot.2
          (curr_depth + 1)

/-- `cuckoo_table::displace_insert(bucket_id, key, value, curr_depth)`. -/
def displace_insert (SLOTS NULLK : Nat) (t : Table V) (bucket_id key : Nat) (value : V)
    (curr_depth : Nat) : Table V × TRes :=
  displaceInsertGo SLOTS NULLK (MAX_INSERT_DEPTH - curr_depth) t bucket_id key value curr_depth

/-- `cuckoo_table::insert`: bump `sz_`, try plain insert into the two home
buckets, else start the displacement walk at the primary home. -/
def Table.insert (SLOTS NULLK : Nat) (t : Table V) (key : Nat) (value : V) :
    Table V × TRes :=
  let t0 : Table V := { t with sz := (t.sz + 1) % 2 ^ 64 }
  let hash := t0.hash key
  let bucket_id1 := get_bucket_id t0 hash
  let bucket_id2 := get_other_bucket_id t0 hash key
  match binsert NULLK key value (bucketAt t0 bucket_id1) with
  | .ok b1 => ({ t0 with buckets := t0.buckets.set bucket_id1 b1 }, .ok)
  | .dup => (t0, .dup)
  | .full =>
    match binsert NULLK key value (bucketAt t0 bucket_id2) with
    | .ok b2 => ({ t0 with buckets := t0.buckets.set bucket_id2 b2 }, .ok)
    | .dup => (t0, .dup)
    | .full => displace_insert SLOTS NULLK t0 bucket_id1 key value 0

/-- `cuckoo_table::erase(it)`: decrement `sz_` (with `size_t` wrap) and
write the sentinel pair into the slot the cursor references.  A cursor is
a pair (bucket index, slot index). -/
def Table.erase (NULLK : Nat) (NULLV : V) (t : Table V) (c : Nat × Nat) : Table V :=
  { t with
    sz := (t.sz + (2 ^ 64 - 1)) % 2 ^ 64,
    buckets := t.buckets.set c.1 ((bucketAt t c.1).set c.2 (NULLK, NULLV)) }

/-- The six or-shift assignments in the body of `next_pow2`. -/
def smear (x0 : Nat) : Nat :=
  let x1 := x0 ||| (x0 >>> 1)
  let x2 := x1 ||| (x1 >>> 2)
  let x3 := x2 ||| (x2 >>> 4)
  let x4 := x3 ||| (x3 >>> 8)
  let x5 := x4 ||| (x4 >>> 16)
  x5 ||| (x5 >>> 32)

/-- `next_pow2` (identical in both source files), on `uint64_t`:
decrement with wrap, smear the bits right, increment with wrap. -/
def next_pow2 (x : Nat) : Nat :=
  (smear ((x + (2 ^ 64 - 1)) % 2 ^ 64) + 1) % 2 ^ 64

/-- The constructor `cuckoo_table(capacity)`: derive
`num_buckets_ = next_pow2(capacity) / SLOTS_PER_BUCKET`, reject when the
check `(num_buckets_ & (num_buckets_ - 1)) != 0` fires (`none`), else
allocate the buckets with every slot sentinel-initialised.  `ctr0` is the
value the process-wide victim counter happens to hold; the allocator and
its alignment check are not modelled. -/
def mk (SLOTS NULLK : Nat) (NULLV : V) (hash : Nat → Nat) (ctr0 capacity : Nat) :
    Option (Table V) :=
  let num_buckets := next_pow2 capacity / SLOTS
  if num_buckets &&& (num_buckets - 1) ≠ 0 then none
  else some ⟨hash, num_buckets, List.replicate num_buckets (List.replicate SLOTS (NULLK, NULLV)), 0, ctr0⟩

/-- Count-to-zero helper for `__builtin_ctz` on a 32-bit value (the
argument is nonzero wherever the source calls it). -/
def ctzGo : Nat → Nat → Nat
  | 0, _ => 0
  | fuel + 1, n => if n % 2 = 1 then 0 else ctzGo fuel (n / 2) + 1

/-- `__builtin_ctz` on a `uint32_t`. -/
def ctz (n : Nat) : Nat := ctzGo 32 n

/-- `Bucket::find_simd` of the map variant, on the bucket's `key_slots`:
broadcast-compare the four 64-bit lanes (`vceqq_u64`), narrow each lane
to 32 bits (`vmovn_u64`), shift right by 31 to a 0/1 lane, weight lane
`i` by `2 ^ i` (`vshlq_u32`), horizontally add to a mask (`vaddvq_u32`),
and take the lowest set bit's index.  Defined only for 4-slot buckets
(the source `static_assert`s `SLOTS_PER_BUCKET == 4`). -/
def find_simd (ks : List Nat) (key : Nat) : Option Nat :=
  match ks with
  | [k0, k1, k2, k3] =>
    let c0 : Nat := if k0 = key then 2 ^ 32 - 1 else 0
    let c1 : Nat := if k1 = key then 2 ^ 32 - 1 else 0
    let c2 : Nat := if k2 = key then 2 ^ 32 - 1 else 0
    let c3 : Nat := if k3 = key then 2 ^ 32 - 1 else 0
    let mask := ((c0 >>> 31) <<< 0) + ((c1 >>> 31) <<< 1) + ((c2 >>> 31) <<< 2) +
      ((c3 >>> 31) <<< 3)
    if mask ≠ 0 then some (ctz mask) else none
  | _ => none

/-- `cuckoo_table::find`: SIMD-probe the primary home bucket, then, on a
miss, the secondary.  A cursor is (bucket index, slot index); `none` is
the null iterator. -/
def find (t : Table Nat) (key : Nat) : Option (Nat × Nat) :=
  let hash := t.hash key
  let bucket_id1 := get_bucket_id t hash
  match find_simd (bkeys t bucket_id1) key with
  | some i => some (bucket_id1, i)
  | none =>
    let bucket_id2 := get_other_bucket_id t hash key
    (find_simd (bkeys t bucket_id2) key).map (fun i => (bucket_id2, i))

/-- `cuckoo_table::find_batched`: pass 1 computes, for every request `i`,
the hash and both home bucket ids (and prefetches, which has no
behavioural content); pass 2 SIMD-probes the primary bucket and, on a
miss, the secondary.  The result array is returned as a list. -/
def find_batched (t : Table Nat) (keys : List Nat) : List (Option (Nat × Nat)) :=
  let key := fun i => keys.getD i 0
  let hashA := fun i => t.hash (key i)
  let bucket_id1s := fun i => get_bucket_id t (hashA i)
  let bucket_id2s := fun i => get_other_bucket_id t (hashA i) (key i)
  (List.range keys.length).map fun i =>
    match find_simd (bkeys t (bucket_id1s i)) (key i) with
    | some j => some (bucket_id1s i, j)
    | none => (find_simd (bkeys t (bucket_id2s i)) (key i)).map (fun j => (bucket_id2s i, j))

/-- The map variant's `cuckoo_table::insert` (`SLOTS_PER_BUCKET = 4`,
64-bit sentinel). -/
def insertM (t : Table Nat) (key value : Nat) : Table Nat × TRes :=
  Table.insert SLOTS_PER_BUCKET NULL_KEY t key value

/-- The map variant's `cuckoo_table::erase`. -/
def eraseM (t : Table Nat) (c : Nat × Nat) : Table Nat :=
  Table.erase NULL_KEY NULL_VALUE t c

/-- The map variant's constructor. -/
def mkM (hash : Nat → Nat) (ctr0 capacity : Nat) : Option (Table Nat) :=
  mk SLOTS_PER_BUCKET NULL_KEY NULL_VALUE hash ctr0 capacity

/-- State-threaded rendering of the map variant's `Bucket::find_simd`,
making the frame effect of the method explicit: the method reads the
slots and returns; no statement assigns to a slot, so the state
component of the result is the incoming bucket. -/
def find_simd_st (b : List (Nat × Nat)) (key : Nat) : List (Nat × Nat) × Option Nat :=
  (b, find_simd (b.map Prod.fst) key)

/-- State-threaded rendering of `cuckoo_table::find`: the method computes
the hash and two bucket ids and probes; no statement assigns to
`buckets_`, `sz_` or any slot, so the state component of the result is
the incoming table. -/
def find_st (t : Table Nat) (key : Nat) : Table Nat × Option (Nat × Nat) :=
  let hash := t.hash key
  let bucket_id1 := get_bucket_id t hash
  match find_simd (bkeys t bucket_id1) key with
  | some i => (t, some (bucket_id1, i))
  | none =>
    let bucket_id2 := get_other_bucket_id t hash key
    (t, (find_simd (bkeys t bucket_id2) key).map (fun i => (bucket_id2, i)))

/-- State-threaded rendering of `cuckoo_table::find_batched`: the loops
write only the local arrays and the caller's result array (returned
here); no statement assigns to table state. -/
def find_batched_st (t : Table Nat) (keys : List Nat) :
    Table Nat × List (Option (Nat × Nat)) :=
  let key := fun i => keys.getD i 0
  let hashA := fun i => t.hash (key i)
  let bucket_id1s := fun i => get_bucket_id t (hashA i)
  let bucket_id2s := fun i => get_other_bucket_id t (hashA i) (key i)
  (t, (List.range keys.length).map fun i =>
    match find_simd (bkeys t (bucket_id1s i)) (key i) with
    | some j => some (bucket_id1s i, j)
    | none => (find_simd (bkeys t (bucket_id2s i)) (key i)).map (fun j => (bucket_id2s i, j)))

/-- Well-formedness of a table state: at least one bucket, a positive slot
count, the bucket array has `num_buckets_` entries and every bucket has
`SLOTS` slots. -/
def wf (SLOTS : Nat) (t : Table V) : Prop :=
  0 < t.nb ∧ 0 < SLOTS ∧ t.buckets.length = t.nb ∧ ∀ b ∈ t.buckets, b.length = SLOTS

/-- The home-bucket invariant: every occupied slot's key lies in one of
its two home buckets. -/
def home_inv (NULLK : Nat) (t : Table V) : Prop :=
  ∀ bi < t.buckets.length, ∀ si < (bkeys t bi).length,
    (bkeys t bi).getD si NULLK ≠ NULLK →
      bi = bucket1 t ((bkeys t bi).getD si NULLK) ∨
        bi = bucket2 t ((bkeys t bi).getD si NULLK)

/-- The keys of the occupied slots of one bucket, as a multiset. -/
def kms (NULLK : Nat) (l : List Nat) : Multiset Nat :=
  (l.filter (fun k => k ≠ NULLK) : List Nat)

/-- The list of all occupied slots' keys of the table. -/
def keyList (NULLK : Nat) (t : Table V) : List Nat :=
  (t.buckets.map (fun b => (b.map Prod.fst).filter (fun k => k ≠ NULLK))).flatten

/-- The multiset of all occupied slots' keys of the table. -/
def tms (NULLK : Nat) (t : Table V) : Multiset Nat :=
  ((t.buckets.map (fun b => kms NULLK (b.map Prod.fst))).sum)

end cuckoo

namespace cuckoo_set

/-- `NULL_KEY = (key_t)-1` for `key_t = uint32_t`. -/
def NULL_KEY : Nat := 2 ^ 32 - 1

/-- `SLOTS_PER_BUCKET = 64 / (2 * sizeof(key_t)) = 8` for the set variant. -/
def SLOTS_PER_BUCKET : Nat := 8

/-- `MAX_LOOKUP_BATCH_SZ = 64 / sizeof(key_t) = 16` for the set variant. -/
def MAX_LOOKUP_BATCH_SZ : Nat := 16

/-- A set-variant table: the generic table with no payload. -/
abbrev Table := cuckoo.Table Unit

/-- `Bucket::find_simd` of the set variant, on the bucket's `key_slots`:
broadcast-compare the eight 32-bit lanes over two vectors (`vceqq_u32`),
then a branch ladder returning the lowest matching lane
(`vgetq_lane_u32` tests).  Defined only for 8-slot buckets. -/
def find_simd (ks : List Nat) (key : Nat) : Option Nat :=
  match ks with
  | [k0, k1, k2, k3, k4, k5, k6, k7] =>
    let e0 : Nat := if k0 = key then 2 ^ 32 - 1 else 0
    let e1 : Nat := if k1 = key then 2 ^ 32 - 1 else 0
    let e2 : Nat := if k2 = key then 2 ^ 32 - 1 else 0
    let e3 : Nat := if k3 = key then 2 ^ 32 - 1 else 0
    let e4 : Nat := if k4 = key then 2 ^ 32 - 1 else 0
    let e5 : Nat := if k5 = key then 2 ^ 32 - 1 else 0
    let e6 : Nat := if k6 = key then 2 ^ 32 - 1 else 0
    let e7 : Nat := if k7 = key then 2 ^ 32 - 1 else 0
    if e0 ≠ 0 then some 0
    else if e1 ≠ 0 then some 1
    else if e2 ≠ 0 then some 2
    else if e3 ≠ 0 then some 3
    else if e4 ≠ 0 then some 4
    else if e5 ≠ 0 then some 5
    else if e6 ≠ 0 then some 6
    else if e7 ≠ 0 then some 7
    else none
  | _ => none

/-- `cuckoo_set::find`: SIMD-probe the primary home bucket, then, on a
miss, the secondary.  The source's slot-pointer iterator is modelled as
the (bucket index, slot index) pair it addresses. -/
def find (t : Table) (key : Nat) : Option (Nat × Nat) :=
  let hash := t.hash key
  let bucket_id1 := cuckoo.get_bucket_id t hash
  match find_simd (cuckoo.bkeys t bucket_id1) key with
  | some i => some (bucket_id1, i)
  | none =>
    let bucket_id2 := cuckoo.get_other_bucket_id t hash key
    (find_simd (cuckoo.bkeys t bucket_id2) key).map (fun i => (bucket_id2, i))

/-- `cuckoo_set::find_batched`.  The source reuses the `bucket_id2s`
array: pass 1 stores the raw hash of key `i` there and derives the
primary bucket id; pass 2 SIMD-probes the primary bucket; pass 3
overwrites, for the misses only, the stored hash with the secondary
bucket id; pass 4 probes the secondary bucket for the misses.  `hashA`
is the array after pass 1 and `bucket_id2s` after pass 3. -/
def find_batched (t : Table) (keys : List Nat) : List (Option (Nat × Nat)) :=
  let key := fun i => keys.getD i 0
  let hashA := fun i => t.hash (key i)
  let bucket_id1s := fun i => cuckoo.get_bucket_id t (hashA i)
  let res1 := fun i =>
    (find_simd (cuckoo.bkeys t (bucket_id1s i)) (key i)).map (fun j => (bucket_id1s i, j))
  let bucket_id2s := fun i =>
    if (res1 i).isSome then hashA i
    else cuckoo.get_other_bucket_id t (hashA i) (key i)
  (List.range keys.length).map fun i =>
    match res1 i with
    | some c => some c
    | none => (find_simd (cuckoo.bkeys t (bucket_id2s i)) (key i)).map (fun j => (bucket_id2s i, j))

/-- The set variant's `cuckoo_set::insert` (`SLOTS_PER_BUCKET = 8`,
32-bit sentinel, no payload). -/
def insertS (t : Table) (key : Nat) : Table × cuckoo.TRes :=
  cuckoo.Table.insert SLOTS_PER_BUCKET NULL_KEY t key ()

/-- The set variant's `cuckoo_set::erase`. -/
def eraseS (t : Table) (c : Nat × Nat) : Table :=
  cuckoo.Table.erase NULL_KEY () t c

/-- The set variant's constructor. -/
def mkS (hash : Nat → Nat) (ctr0 capacity : Nat) : Option Table :=
  cuckoo.mk SLOTS_PER_BUCKET NULL_KEY () hash ctr0 capacity

/-- State-threaded rendering of the set variant's `Bucket::find_simd`
(reads only). -/
def find_simd_st (b : List (Nat × Unit)) (key : Nat) : List (Nat × Unit) × Option Nat :=
  (b, find_simd (b.map Prod.fst) key)

/-- State-threaded rendering of `cuckoo_set::find` (reads only). -/
def find_st (t : Table) (key : Nat) : Table × Option (Nat × Nat) :=
  let hash := t.hash key
  let bucket_id1 := cuckoo.get_bucket_id t hash
  match find_simd (cuckoo.bkeys t bucket_id1) key with
  | some i => (t, some (bucket_id1, i))
  | none =>
    let bucket_id2 := cuckoo.get_other_bucket_id t hash key
    (t, (find_simd (cuckoo.bkeys t bucket_id2) key).map (fun i => (bucket_id2, i)))

/-- State-threaded rendering of `cuckoo_set::find_batched`: the loops
write only the local arrays (including the reused `bucket_id2s` array)
and the caller's result array; no statement assigns to table state. -/
def find_batched_st (t : Table) (keys : List Nat) :
    Table × List (Option (Nat × Nat)) :=
  let key := fun i => keys.getD i 0
  let hashA := fun i => t.hash (key i)
  let bucket_id1s := fun i => cuckoo.get_bucket_id t (hashA i)
  let res1 := fun i =>
    (find_simd (cuckoo.bkeys t (bucket_id1s i)) (key i)).map (fun j => (bucket_id1s i, j))
  let bucket_id2s := fun i =>
    if (res1 i).isSome then hashA i
    else cuckoo.get_other_bucket_id t (hashA i) (key i)
  (t, (List.range keys.length).map fun i =>
    match res1 i with
    | some c => some c
    | none => (find_simd (cuckoo.bkeys t (bucket_id2s i)) (key i)).map (fun j => (bucket_id2s i, j)))

end cuckoo_set

/-- A concrete map-variant table: one bucket, all four slots empty, the
identity hash, `sz = 0`, victim counter 0 (used in closed witnesses). -/
def tEmpty1 : cuckoo.Table Nat :=
  ⟨fun k => k, 1,
    [[(cuckoo.NULL_KEY, cuckoo.NULL_VALUE), (cuckoo.NULL_KEY, cuckoo.NULL_VALUE),
      (cuckoo.NULL_KEY, cuckoo.NULL_VALUE), (cuckoo.NULL_KEY, cuckoo.NULL_VALUE)]],
    0, 0⟩

/-- A concrete map-variant table: one bucket holding keys 1..4 (full), the
identity hash, `sz = 4`.  With one bucket every key's two home buckets
coincide, so inserting a fifth key must churn until the depth cap. -/
def tFull1 : cuckoo.Table Nat :=
  ⟨fun k => k, 1, [[(1, 0), (2, 0), (3, 0), (4, 0)]], 4, 0⟩

/-- A concrete set-variant table: one bucket holding keys 1..8 (full). -/
def tSetFull1 : cuckoo_set.Table :=
  ⟨fun k => k, 1,
    [[(1, ()), (2, ()), (3, ()), (4, ()), (5, ()), (6, ()), (7, ()), (8, ())]], 8, 0⟩

/-- A concrete map-variant table: one bucket holding key 5 with value 7
and three empty slots. -/
def tLookup1 : cuckoo.Table Nat :=
  ⟨fun k => k, 1,
    [[(5, 7), (cuckoo.NULL_KEY, cuckoo.NULL_VALUE), (cuckoo.NULL_KEY, cuckoo.NULL_VALUE),
      (cuckoo.NULL_KEY, cuckoo.NULL_VALUE)]], 1, 0⟩

example : cuckoo.next_pow2 0 = 0 := by decide
example : cuckoo.next_pow2 5 = 8 := by decide
example : cuckoo.next_pow2 8 = 8 := by decide
example : cuckoo.kfind 3 [1, 3, 3] = some 1 := by decide
example : cuckoo.find_simd [7, 2, 9, 2] 2 = some 1 := by decide
example : cuckoo.find_simd [7, 2, 9, 2] 5 = none := by decide
example :
    cuckoo.binsert 99 5 0 [(1, 0), (99, 0), (3, 0)] = .ok [(1, 0), (5, 0), (3, 0)] := by
  decide
example : cuckoo.binsert 99 5 0 [(1, 0), (5, 0), (3, 0)] = .dup := by decide
example : cuckoo.binsert 99 5 0 [(1, 0), (6, 0), (3, 0)] = .full := by decide

/-! ## Helper lemmas about the linear bucket probe -/

theorem kfind_eq_none_iff (key : Nat) (l : List Nat) :
    cuckoo.kfind key l = none ↔ key ∉ l := by
  induction l with
  | nil => simp [cuckoo.kfind]
  | cons k ks ih =>
    by_cases h : k = key
    · simp [cuckoo.kfind, h]
    · cases hk : cuckoo.kfind key ks <;>
        simp_all [cuckoo.kfind, h, Ne.symm h]

theorem kfind_some_getD (key : Nat) (l : List Nat) (i d : Nat)
    (h : cuckoo.kfind key l = some i) : i < l.length ∧ l.getD i d = key := by
  induction l generalizing i with
  | nil => simp [cuckoo.kfind] at h
  | cons k ks ih =>
    by_cases hk : k = key
    · simp [cuckoo.kfind, hk] at h
      subst h
      simp [hk]
    · simp only [cuckoo.kfind, hk, if_false] at h
      cases hrec : cuckoo.kfind key ks with
      | none => rw [hrec] at h; simp at h
      | some j =>
        rw [hrec] at h
        simp at h
        subst h
        obtain ⟨h1, h2⟩ := ih j hrec
        constructor
        · simpa using h1
        · simpa using h2

theorem kfind_isSome_of_mem (key : Nat) (l : List Nat) (h : key ∈ l) :
    ∃ i, cuckoo.kfind key l = some i := by
  cases hk : cuckoo.kfind key l with
  | none => exact absurd h ((kfind_eq_none_iff key l).1 hk)
  | some i => exact ⟨i, rfl⟩

/-! ## Claim C3: `find_simd` agrees with the linear `find`, both variants -/

theorem find_simd4_eq_kfind (ks : List Nat) (key : Nat) (h : ks.length = 4) :
    cuckoo.find_simd ks key = cuckoo.kfind key ks := by
  match ks with
  | [k0, k1, k2, k3] =>
    by_cases h0 : k0 = key <;> by_cases h1 : k1 = key <;>
      by_cases h2 : k2 = key <;> by_cases h3 : k3 = key <;>
      simp [cuckoo.find_simd, cuckoo.kfind, h0, h1, h2, h3, cuckoo.ctz,
        cuckoo.ctzGo]

theorem find_simd8_eq_kfind (ks : List Nat) (key : Nat) (h : ks.length = 8) :
    cuckoo_set.find_simd ks key = cuckoo.kfind key ks := by
  match ks with
  | [k0, k1, k2, k3, k4, k5, k6, k7] =>
    by_cases h0 : k0 = key
    · simp [cuckoo_set.find_simd, cuckoo.kfind, h0]
    by_cases h1 : k1 = key
    · simp [cuckoo_set.find_simd, cuckoo.kfind, h0, h1]
    by_cases h2 : k2 = key
    · simp [cuckoo_set.find_simd, cuckoo.kfind, h0, h1, h2]
    by_cases h3 : k3 = key
    · simp [cuckoo_set.find_simd, cuckoo.kfind, h0, h1, h2, h3]
    by_cases h4 : k4 = key
    · simp [cuckoo_set.find_simd, cuckoo.kfind, h0, h1, h2, h3, h4]
    by_cases h5 : k5 = key
    · simp [cuckoo_set.find_simd, cuckoo.kfind, h0, h1, h2, h3, h4, h5]
    by_cases h6 : k6 = key
    · simp [cuckoo_set.find_simd, cuckoo.kfind, h0, h1, h2, h3, h4, h5, h6]
    by_cases h7 : k7 = key
    · simp [cuckoo_set.find_simd, cuckoo.kfind, h0, h1, h2, h3, h4, h5, h6, h7]
    · simp [cuckoo_set.find_simd, cuckoo.kfind, h0, h1, h2, h3, h4, h5, h6, h7]

/-- C3.  For every bucket state and every probe key, `Bucket::find_simd`
returns the same cursor as the linear `Bucket::find`: the lowest-indexed
slot whose stored key equals the probe key, or the null cursor when no
slot matches.  First conjunct: the map variant (4-slot buckets, NEON
mask-and-count-trailing-zeros); second conjunct: the set variant (8-slot
buckets, NEON lane-test branch ladder). -/
theorem C3_find_simd_eq_linear_find :
    (∀ (ks : List Nat) (key : Nat), ks.length = 4 →
      cuckoo.find_simd ks key = cuckoo.kfind key ks) ∧
    (∀ (ks : List Nat) (key : Nat), ks.length = 8 →
      cuckoo_set.find_simd ks key = cuckoo.kfind key ks) :=
  ⟨find_simd4_eq_kfind, find_simd8_eq_kfind⟩

/-- Witness for C3 at concrete buckets: a hit in lane 2 of a 4-slot
bucket and a hit in lane 5 of an 8-slot bucket, plus a miss. -/
theorem C3_witness :
    cuckoo.find_simd [9, 8, 7, 6] 7 = cuckoo.kfind 7 [9, 8, 7, 6] ∧
    cuckoo_set.find_simd [1, 2, 3, 4, 5, 6, 7, 8] 6 =
      cuckoo.kfind 6 [1, 2, 3, 4, 5, 6, 7, 8] ∧
    cuckoo.find_simd [9, 8, 7, 6] 5 = cuckoo.kfind 5 [9, 8, 7, 6] :=
  ⟨C3_find_simd_eq_linear_find.1 [9, 8, 7, 6] 7 rfl,
   C3_find_simd_eq_linear_find.2 [1, 2, 3, 4, 5, 6, 7, 8] 6 rfl,
   C3_find_simd_eq_linear_find.1 [9, 8, 7, 6] 5 rfl⟩

/-! ## Claim C2: batched find agrees element-wise with serial find -/

theorem getD_range_map {α : Type} (f : Nat → α) (n i : Nat) (h : i < n) (d : α) :
    ((List.range n).map f).getD i d = f i := by
  rw [List.getD_eq_getElem?_getD, List.getElem?_map, List.getElem?_range h]
  rfl

/-- C2.  For every batch of at most `MAX_LOOKUP_BATCH_SZ` keys,
`find_batched` stores in result slot `i` exactly the cursor a serial
`find(keys[i])` on the same table state returns.  First conjunct: the
map variant (window 8); second conjunct: the set variant (window 16,
with the `bucket_id2s` array reused for the raw hash and then the
secondary bucket id). -/
theorem C2_find_batched_eq_serial_find :
    (∀ (t : cuckoo.Table Nat) (keys : List Nat),
      keys.length ≤ cuckoo.MAX_LOOKUP_BATCH_SZ →
      ∀ i < keys.length,
        (cuckoo.find_batched t keys).getD i none = cuckoo.find t (keys.getD i 0)) ∧
    (∀ (t : cuckoo_set.Table) (keys : List Nat),
      keys.length ≤ cuckoo_set.MAX_LOOKUP_BATCH_SZ →
      ∀ i < keys.length,
        (cuckoo_set.find_batched t keys).getD i none =
          cuckoo_set.find t (keys.getD i 0)) := by
  constructor
  · intro t keys _ i hi
    rw [cuckoo.find_batched, getD_range_map _ _ i hi]
    rfl
  · intro t keys _ i hi
    rw [cuckoo_set.find_batched, getD_range_map _ _ i hi]
    simp only [List.getD_eq_getElem?_getD]
    cases hs : cuckoo_set.find_simd
        (cuckoo.bkeys t (cuckoo.get_bucket_id t (t.hash (keys[i]?.getD 0))))
        (keys[i]?.getD 0) with
    | some j => simp [cuckoo_set.find, hs]
    | none => simp [cuckoo_set.find, hs]

/-- Witness for C2 on a concrete two-bucket map table and a concrete
one-bucket set table, with a two-key batch (one hit, one miss) each. -/
theorem C2_witness :
    (cuckoo.find_batched
        ⟨fun k => k, 2, [[(3, 30), (cuckoo.NULL_KEY, 0), (cuckoo.NULL_KEY, 0), (cuckoo.NULL_KEY, 0)],
          [(5, 50), (cuckoo.NULL_KEY, 0), (cuckoo.NULL_KEY, 0), (cuckoo.NULL_KEY, 0)]], 2, 0⟩
        [5, 7]).getD 0 none =
      cuckoo.find
        ⟨fun k => k, 2, [[(3, 30), (cuckoo.NULL_KEY, 0), (cuckoo.NULL_KEY, 0), (cuckoo.NULL_KEY, 0)],
          [(5, 50), (cuckoo.NULL_KEY, 0), (cuckoo.NULL_KEY, 0), (cuckoo.NULL_KEY, 0)]], 2, 0⟩
        ([5, 7].getD 0 0) ∧
    (cuckoo_set.find_batched
        ⟨fun k => k, 1, [[(4, ()), (9, ()), (cuckoo_set.NULL_KEY, ()), (cuckoo_set.NULL_KEY, ()),
          (cuckoo_set.NULL_KEY, ()), (cuckoo_set.NULL_KEY, ()), (cuckoo_set.NULL_KEY, ()),
          (cuckoo_set.NULL_KEY, ())]], 2, 0⟩
        [9, 1]).getD 1 none =
      cuckoo_set.find
        ⟨fun k => k, 1, [[(4, ()), (9, ()), (cuckoo_set.NULL_KEY, ()), (cuckoo_set.NULL_KEY, ()),
          (cuckoo_set.NULL_KEY, ()), (cuckoo_set.NULL_KEY, ()), (cuckoo_set.NULL_KEY, ()),
          (cuckoo_set.NULL_KEY, ())]], 2, 0⟩
        ([9, 1].getD 1 0) :=
  ⟨C2_find_batched_eq_serial_find.1 _ [5, 7] (by decide) 0 (by decide),
   C2_find_batched_eq_serial_find.2 _ [9, 1] (by decide) 1 (by decide)⟩

/-! ## Claim C9: the find family mutates no table state -/

/-- C9.  `find`, `find_simd` and `find_batched` are pure readers: the
state-threaded renderings of their bodies return the table (resp.
bucket) state unchanged — every key slot, value slot and the size
counter — together with exactly the value the pure functions compute.
Conjuncts cover the map variant and the set variant. -/
theorem C9_find_family_is_read_only :
    (∀ (t : cuckoo.Table Nat) (key : Nat),
      cuckoo.find_st t key = (t, cuckoo.find t key)) ∧
    (∀ (t : cuckoo.Table Nat) (keys : List Nat),
      cuckoo.find_batched_st t keys = (t, cuckoo.find_batched t keys)) ∧
    (∀ (b : List (Nat × Nat)) (key : Nat),
      cuckoo.find_simd_st b key = (b, cuckoo.find_simd (b.map Prod.fst) key)) ∧
    (∀ (t : cuckoo_set.Table) (key : Nat),
      cuckoo_set.find_st t key = (t, cuckoo_set.find t key)) ∧
    (∀ (t : cuckoo_set.Table) (keys : List Nat),
      cuckoo_set.find_batched_st t keys = (t, cuckoo_set.find_batched t keys)) ∧
    (∀ (b : List (Nat × Unit)) (key : Nat),
      cuckoo_set.find_simd_st b key = (b, cuckoo_set.find_simd (b.map Prod.fst) key)) := by
  refine ⟨fun t key => ?_, fun t keys => rfl, fun b key => rfl,
    fun t key => ?_, fun t keys => rfl, fun b key => rfl⟩
  · rw [cuckoo.find_st, cuckoo.find]
    cases cuckoo.find_simd (cuckoo.bkeys t (cuckoo.get_bucket_id t (t.hash key))) key <;> rfl
  · rw [cuckoo_set.find_st, cuckoo_set.find]
    cases cuckoo_set.find_simd (cuckoo.bkeys t (cuckoo.get_bucket_id t (t.hash key))) key <;>
      rfl

/-! ## Claim C10: `next_pow2` computes the least power of two above -/

theorem window_step {y v : Nat} {w : Nat}
    (hv : ∀ j, v.testBit j = true ↔ ∃ s < w, y.testBit (j + s) = true) :
    ∀ j, (v ||| v >>> w).testBit j = true ↔ ∃ s < 2 * w, y.testBit (j + s) = true := by
  intro j
  rw [Nat.testBit_or, Bool.or_eq_true, Nat.testBit_shiftRight, hv j, hv (w + j)]
  constructor
  · rintro (⟨s, hs, hb⟩ | ⟨s, hs, hb⟩)
    · exact ⟨s, by omega, hb⟩
    · refine ⟨w + s, by omega, ?_⟩
      have he : j + (w + s) = w + j + s := by omega
      rw [he]; exact hb
  · rintro ⟨s, hs, hb⟩
    rcases Nat.lt_or_ge s w with h | h
    · exact Or.inl ⟨s, h, hb⟩
    · refine Or.inr ⟨s - w, by omega, ?_⟩
      have he : w + j + (s - w) = j + s := by omega
      rw [he]; exact hb

theorem smear_testBit (y : Nat) :
    ∀ j, (cuckoo.smear y).testBit j = true ↔ ∃ s < 64, y.testBit (j + s) = true := by
  have h1 : ∀ j, y.testBit j = true ↔ ∃ s < 1, y.testBit (j + s) = true := by
    intro j
    constructor
    · intro h; exact ⟨0, Nat.zero_lt_one, by simpa using h⟩
    · rintro ⟨s, hs, hb⟩
      obtain rfl : s = 0 := by omega
      simpa using hb
  have h2 := window_step h1
  have h4 := window_step h2
  have h8 := window_step h4
  have h16 := window_step h8
  have h32 := window_step h16
  have h64 := window_step h32
  simpa [cuckoo.smear] using h64

theorem testBit_size_sub_one {y : Nat} (h0 : 0 < y) :
    y.testBit (y.size - 1) = true := by
  have hsz : 0 < y.size := Nat.size_pos.2 h0
  have h1 : 2 ^ (y.size - 1) ≤ y := Nat.lt_size.1 (by omega)
  have h2 : y < 2 ^ y.size := Nat.lt_size_self y
  have hq : y / 2 ^ (y.size - 1) = 1 := by
    have hlow : 1 * 2 ^ (y.size - 1) ≤ y := by simpa using h1
    have hhigh : y < 2 * 2 ^ (y.size - 1) := by
      have he : 2 * 2 ^ (y.size - 1) = 2 ^ y.size := by
        have hss : y.size - 1 + 1 = y.size := by omega
        conv_rhs => rw [← hss]
        rw [Nat.pow_succ, Nat.mul_comm]
      omega
    have hlt : y / 2 ^ (y.size - 1) < 2 := by
      rw [Nat.div_lt_iff_lt_mul (Nat.pos_pow_of_pos (y.size - 1) (by norm_num))]
      omega
    have hge : 1 ≤ y / 2 ^ (y.size - 1) :=
      (Nat.le_div_iff_mul_le (Nat.pos_pow_of_pos (y.size - 1) (by norm_num))).2 hlow
    omega
  rw [Nat.testBit_to_div_mod, hq]
  decide

theorem smear_eq_two_pow_size {y : Nat} (h0 : 0 < y) (h64 : y < 2 ^ 64) :
    cuckoo.smear y = 2 ^ y.size - 1 := by
  apply Nat.eq_of_testBit_eq
  intro j
  rw [Nat.testBit_two_pow_sub_one]
  rcases Nat.lt_or_ge j y.size with hj | hj
  · have hbit : (cuckoo.smear y).testBit j = true := by
      apply (smear_testBit y j).2
      have hszle : y.size ≤ 64 := Nat.size_le.2 h64
      refine ⟨y.size - 1 - j, by omega, ?_⟩
      have he : j + (y.size - 1 - j) = y.size - 1 := by omega
      rw [he]
      exact testBit_size_sub_one h0
    rw [hbit]
    exact (decide_eq_true hj).symm
  · have hfalse : (cuckoo.smear y).testBit j = false := by
      rcases hb : (cuckoo.smear y).testBit j with _ | _
      · rfl
      · obtain ⟨s, _, hbit⟩ := (smear_testBit y j).1 hb
        have : y < 2 ^ (j + s) :=
          lt_of_lt_of_le (Nat.lt_size_self y)
            (Nat.pow_le_pow_right (by norm_num) (by omega))
        rw [Nat.testBit_eq_false_of_lt this] at hbit
        exact absurd hbit (by simp)
    rw [hfalse, eq_comm, decide_eq_false_iff_not]
    omega

theorem next_pow2_eq_two_pow_size {x : Nat} (h1 : 1 ≤ x) (h2 : x ≤ 2 ^ 63) :
    cuckoo.next_pow2 x = 2 ^ (x - 1).size := by
  have hdec : (x + (2 ^ 64 - 1)) % 2 ^ 64 = x - 1 := by
    have he : x + (2 ^ 64 - 1) = (x - 1) + 1 * 2 ^ 64 := by omega
    rw [he, Nat.add_mul_mod_self_right, Nat.mod_eq_of_lt (by omega)]
  rcases Nat.eq_or_lt_of_le h1 with h | h
  · rw [cuckoo.next_pow2, hdec, ← h]
    have hs0 : cuckoo.smear (1 - 1) = 0 := by decide
    rw [hs0]
    simp [Nat.size_zero]
  · have hy0 : 0 < x - 1 := by omega
    have hy64 : x - 1 < 2 ^ 64 := by omega
    have hs63 : (x - 1).size ≤ 63 := Nat.size_le.2 (by omega)
    rw [cuckoo.next_pow2, hdec, smear_eq_two_pow_size hy0 hy64]
    have hp : 0 < 2 ^ (x - 1).size := Nat.pos_pow_of_pos _ (by norm_num)
    have hlt : 2 ^ (x - 1).size < 2 ^ 64 :=
      lt_of_le_of_lt (Nat.pow_le_pow_right (by norm_num) hs63) (by norm_num)
    rw [Nat.sub_add_cancel hp, Nat.mod_eq_of_lt hlt]

/-- C10.  `next_pow2(0) = 0`, and for every `1 ≤ x ≤ 2 ^ 63`,
`next_pow2 x` is the least power of two greater than or equal to `x`. -/
theorem C10_next_pow2_least_pow2 :
    cuckoo.next_pow2 0 = 0 ∧
    ∀ x : Nat, 1 ≤ x → x ≤ 2 ^ 63 →
      (∃ k, cuckoo.next_pow2 x = 2 ^ k) ∧ x ≤ cuckoo.next_pow2 x ∧
        ∀ j : Nat, x ≤ 2 ^ j → cuckoo.next_pow2 x ≤ 2 ^ j := by
  refine ⟨by decide, fun x h1 h2 => ?_⟩
  rw [next_pow2_eq_two_pow_size h1 h2]
  refine ⟨⟨(x - 1).size, rfl⟩, ?_, fun j hj => ?_⟩
  · have := Nat.lt_size_self (x - 1)
    omega
  · exact Nat.pow_le_pow_right (by norm_num) (Nat.size_le.2 (by omega))

/-- Witness for C10 at `x = 5`: `next_pow2 5 = 8`, a power of two, at
least 5, and no smaller power of two is at least 5. -/
theorem C10_witness :
    (∃ k, cuckoo.next_pow2 5 = 2 ^ k) ∧ 5 ≤ cuckoo.next_pow2 5 ∧
      ∀ j : Nat, 5 ≤ 2 ^ j → cuckoo.next_pow2 5 ≤ 2 ^ j :=
  C10_next_pow2_least_pow2.2 5 (by norm_num) (by norm_num)

/-! ## Claim C7: construction and the power-of-two slot count -/

theorem two_pow_and_pred (k : Nat) : 2 ^ k &&& (2 ^ k - 1) = 0 := by
  apply Nat.eq_of_testBit_eq
  intro j
  rw [Nat.testBit_and, Nat.testBit_two_pow, Nat.testBit_two_pow_sub_one, Nat.zero_testBit]
  by_cases h : k = j
  · subst h; simp
  · simp [h]

/-- Counterexample to C7 as stated.  The claim quantifies over every
requested capacity `C ≥ 1`, but at `C = 1` the constructor of the map
variant derives `num_buckets_ = next_pow2(1) / 4 = 0`, the power-of-two
check `(0 & (0 - 1)) != 0` does not fire (so a zero-bucket count, which
is not a power of two, is accepted), construction completes, and the
total slot count is `0 < 1`. -/
theorem C7_counterexample :
    (cuckoo.mkM (fun k => k) 0 1).map (fun t => t.nb * cuckoo.SLOTS_PER_BUCKET) =
      some 0 := by
  decide

/-- C7, amended.  The counterexample forces the capacity range down to
those capacities whose derived bucket count is at least one: for every
`3 ≤ C ≤ 2 ^ 63` (so that `next_pow2 C ≥ 4 = SLOTS_PER_BUCKET`, and the
`uint64_t` shift cascade does not wrap), construction of the map variant
succeeds and the total slot count `num_buckets_ * SLOTS_PER_BUCKET =
next_pow2 C` is the least power of two greater than or equal to `C`; the
constructor's check accepts the derived bucket count because that count
is a power of two (for `C < 3` the derived count is zero, which the
check also accepts). -/
theorem C7_construction_amended (hash : Nat → Nat) (ctr0 capacity : Nat)
    (h3 : 3 ≤ capacity) (h63 : capacity ≤ 2 ^ 63) :
    ∃ t : cuckoo.Table Nat, cuckoo.mkM hash ctr0 capacity = some t ∧
      t.nb * cuckoo.SLOTS_PER_BUCKET = cuckoo.next_pow2 capacity ∧
      (∃ k, t.nb * cuckoo.SLOTS_PER_BUCKET = 2 ^ k) ∧
      capacity ≤ t.nb * cuckoo.SLOTS_PER_BUCKET ∧
      ∀ j, capacity ≤ 2 ^ j → t.nb * cuckoo.SLOTS_PER_BUCKET ≤ 2 ^ j := by
  have hk : cuckoo.next_pow2 capacity = 2 ^ (capacity - 1).size :=
    next_pow2_eq_two_pow_size (by omega) h63
  have hk2 : 2 ≤ (capacity - 1).size := by
    have h1 : 1 < (capacity - 1).size := Nat.lt_size.2 (by omega)
    omega
  have hnb : cuckoo.next_pow2 capacity / cuckoo.SLOTS_PER_BUCKET =
      2 ^ ((capacity - 1).size - 2) := by
    rw [hk]
    show 2 ^ (capacity - 1).size / 2 ^ 2 = 2 ^ ((capacity - 1).size - 2)
    rw [Nat.pow_div hk2 (by norm_num)]
  have hcheck : (cuckoo.next_pow2 capacity / cuckoo.SLOTS_PER_BUCKET) &&&
      (cuckoo.next_pow2 capacity / cuckoo.SLOTS_PER_BUCKET - 1) = 0 := by
    rw [hnb]
    exact two_pow_and_pred _
  have hcount : (cuckoo.next_pow2 capacity / cuckoo.SLOTS_PER_BUCKET) *
      cuckoo.SLOTS_PER_BUCKET = cuckoo.next_pow2 capacity := by
    rw [hnb, hk]
    show 2 ^ ((capacity - 1).size - 2) * 2 ^ 2 = 2 ^ (capacity - 1).size
    rw [← Nat.pow_add]
    congr 1
    omega
  refine ⟨⟨hash, cuckoo.next_pow2 capacity / cuckoo.SLOTS_PER_BUCKET,
    List.replicate (cuckoo.next_pow2 capacity / cuckoo.SLOTS_PER_BUCKET)
      (List.replicate cuckoo.SLOTS_PER_BUCKET (cuckoo.NULL_KEY, cuckoo.NULL_VALUE)),
    0, ctr0⟩, ?_, ?_, ?_, ?_, ?_⟩
  · simp [cuckoo.mkM, cuckoo.mk, hcheck]
  · exact hcount
  · rw [hcount, hk]
    exact ⟨_, rfl⟩
  · rw [hcount, hk]
    have := Nat.lt_size_self (capacity - 1)
    omega
  · intro j hj
    rw [hcount, hk]
    exact Nat.pow_le_pow_right (by norm_num) (Nat.size_le.2 (by omega))

/-- Witness for the amended C7 at capacity 5: construction succeeds with
8 total slots, the least power of two at least 5. -/
theorem C7_witness :
    ∃ t : cuckoo.Table Nat, cuckoo.mkM (fun k => k) 0 5 = some t ∧
      t.nb * cuckoo.SLOTS_PER_BUCKET = cuckoo.next_pow2 5 ∧
      (∃ k, t.nb * cuckoo.SLOTS_PER_BUCKET = 2 ^ k) ∧
      5 ≤ t.nb * cuckoo.SLOTS_PER_BUCKET ∧
      ∀ j, 5 ≤ 2 ^ j → t.nb * cuckoo.SLOTS_PER_BUCKET ≤ 2 ^ j :=
  C7_construction_amended (fun k => k) 0 5 (by norm_num) (by norm_num)

/-! ## Claim C4: the `Bucket::insert` contract -/

/-- Counterexample to C4 as stated.  The claim's clauses overlap: in the
bucket `[(5,0), (sentinel,0), (7,0), (8,0)]` an empty slot exists (slot
1 holds the sentinel), so by the claim inserting the non-sentinel key 5
should write it there and return true; but the code scans in index
order, meets the resident key 5 first, and throws
(`tried to insert existing key`). -/
theorem C4_counterexample :
    cuckoo.binsert cuckoo.NULL_KEY 5 0
        [(5, 0), (cuckoo.NULL_KEY, 0), (7, 0), (8, 0)] = .dup ∧
      cuckoo.NULL_KEY ∈
        ([(5, 0), (cuckoo.NULL_KEY, 0), (7, 0), (8, 0)].map Prod.fst) := by
  constructor
  · decide
  · decide

/-- C4, amended.  `Bucket::insert` decides by the first slot, in index
order, that is either empty or holds the probe key: if the first empty
slot comes before any slot holding the key, the key (and value) is
written into that first empty slot and the call returns true; if a slot
holding the key comes first, the call throws; if no slot is empty and
none holds the key (full bucket, key absent), it returns false without
mutation (the `full` result carries no modified bucket).  This covers
the map and set variants at once, since both instantiate the same
generic `binsert`.  Stated for non-sentinel keys; `kfind` is the linear
first-match scan. -/
theorem C4_bucket_insert_contract {V : Type} (NULLK key : Nat) (value : V)
    (b : List (Nat × V)) (hkey : key ≠ NULLK) :
    (∀ i, cuckoo.kfind NULLK (b.map Prod.fst) = some i →
      (∀ j, cuckoo.kfind key (b.map Prod.fst) = some j → i < j) →
      cuckoo.binsert NULLK key value b = .ok (b.set i (key, value))) ∧
    (∀ j, cuckoo.kfind key (b.map Prod.fst) = some j →
      (∀ i, cuckoo.kfind NULLK (b.map Prod.fst) = some i → j < i) →
      cuckoo.binsert NULLK key value b = .dup) ∧
    (cuckoo.kfind NULLK (b.map Prod.fst) = none →
      cuckoo.kfind key (b.map Prod.fst) = none →
      cuckoo.binsert NULLK key value b = .full) := by
  refine ⟨?_, ?_, ?_⟩
  · induction b with
    | nil => intro i hi _; simp [cuckoo.kfind] at hi
    | cons s rest ih =>
      intro i hi hj
      by_cases hA : s.1 = NULLK
      · have hi0 : i = 0 := by
          simp [cuckoo.kfind, hA] at hi
          omega
        subst hi0
        simp [cuckoo.binsert, hA]
      · by_cases hB : s.1 = key
        · exfalso
          have h0 := hj 0 (by simp [cuckoo.kfind, hB])
          omega
        · simp only [List.map_cons, cuckoo.kfind, hA, hB, if_false] at hi
          cases hrest : cuckoo.kfind NULLK (rest.map Prod.fst) with
          | none => rw [hrest] at hi; simp at hi
          | some i' =>
            rw [hrest] at hi
            simp at hi
            have hj' : ∀ j', cuckoo.kfind key (rest.map Prod.fst) = some j' → i' < j' := by
              intro j' hjr
              have := hj (j' + 1) (by simp [cuckoo.kfind, hB, hjr])
              omega
            have hr := ih i' hrest hj'
            subst hi
            simp [cuckoo.binsert, hA, hB, hr]
  · induction b with
    | nil => intro j hjn _; simp [cuckoo.kfind] at hjn
    | cons s rest ih =>
      intro j hjn hi
      by_cases hA : s.1 = NULLK
      · exfalso
        have h0 := hi 0 (by simp [cuckoo.kfind, hA])
        omega
      · by_cases hB : s.1 = key
        · simp [cuckoo.binsert, hA, hB, hkey]
        · simp only [List.map_cons, cuckoo.kfind, hA, hB, if_false] at hjn
          cases hrest : cuckoo.kfind key (rest.map Prod.fst) with
          | none => rw [hrest] at hjn; simp at hjn
          | some j' =>
            rw [hrest] at hjn
            simp at hjn
            have hi' : ∀ i', cuckoo.kfind NULLK (rest.map Prod.fst) = some i' → j' < i' := by
              intro i' hir
              have := hi (i' + 1) (by simp [cuckoo.kfind, hA, hir])
              omega
            have hr := ih j' hrest hi'
            simp [cuckoo.binsert, hA, hB, hr]
  · induction b with
    | nil => intro _ _; rfl
    | cons s rest ih =>
      intro hn hk
      by_cases hA : s.1 = NULLK
      · simp [cuckoo.kfind, hA] at hn
      · by_cases hB : s.1 = key
        · simp [cuckoo.kfind, hB] at hk
        · simp only [List.map_cons, cuckoo.kfind, hA, hB, if_false] at hn hk
          have hn' : cuckoo.kfind NULLK (rest.map Prod.fst) = none := by
            cases h : cuckoo.kfind NULLK (rest.map Prod.fst) with
            | none => rfl
            | some i => rw [h] at hn; simp at hn
          have hk' : cuckoo.kfind key (rest.map Prod.fst) = none := by
            cases h : cuckoo.kfind key (rest.map Prod.fst) with
            | none => rfl
            | some i => rw [h] at hk; simp at hk
          simp [cuckoo.binsert, hA, hB, ih hn' hk']

/-- Witness for the amended C4, all three branches at concrete buckets:
empty-first insert into slot 1, duplicate-first throw, and full-absent
returning false. -/
theorem C4_witness :
    cuckoo.binsert cuckoo.NULL_KEY 5 (0 : Nat)
        [(9, 0), (cuckoo.NULL_KEY, 0), (5, 0)] =
      .ok [(9, 0), (5, 0), (5, 0)] ∧
    cuckoo.binsert cuckoo.NULL_KEY 7 (0 : Nat)
        [(7, 0), (cuckoo.NULL_KEY, 0)] = .dup ∧
    cuckoo.binsert cuckoo.NULL_KEY 3 (0 : Nat) [(1, 0), (2, 0)] = .full :=
  ⟨(C4_bucket_insert_contract cuckoo.NULL_KEY 5 0 _ (by decide)).1 1 (by decide)
      (fun j hj => by
        simp [cuckoo.kfind, cuckoo.NULL_KEY] at hj
        omega),
   (C4_bucket_insert_contract cuckoo.NULL_KEY 7 0 _ (by decide)).2.1 0 (by decide)
      (fun i hi => by
        simp [cuckoo.kfind, cuckoo.NULL_KEY] at hi
        omega),
   (C4_bucket_insert_contract cuckoo.NULL_KEY 3 0 _ (by decide)).2.2 (by decide) (by decide)⟩

/-! ## Bucket-level effect lemmas for the insertion path -/

theorem binsert_full_iff {V : Type} (NULLK key : Nat) (value : V) (b : List (Nat × V)) :
    cuckoo.binsert NULLK key value b = .full ↔ ∀ s ∈ b, s.1 ≠ NULLK ∧ s.1 ≠ key := by
  induction b with
  | nil => simp [cuckoo.binsert]
  | cons s rest ih =>
    rw [cuckoo.binsert]
    by_cases hA : s.1 = NULLK
    · rw [if_pos hA]
      constructor
      · intro h; exact absurd h (by simp)
      · intro h; exact absurd hA (h s (by simp)).1
    · rw [if_neg hA]
      by_cases hB : s.1 = key
      · rw [if_pos hB]
        constructor
        · intro h; exact absurd h (by simp)
        · intro h; exact absurd hB (h s (by simp)).2
      · rw [if_neg hB]
        constructor
        · intro h s1 hs1
          rcases List.mem_cons.1 hs1 with rfl | hmem
          · exact ⟨hA, hB⟩
          · cases hr : cuckoo.binsert NULLK key value rest with
            | ok r => rw [hr] at h; simp at h
            | dup => rw [hr] at h; simp at h
            | full => exact (ih.1 hr) s1 hmem
        · intro h
          rw [ih.2 (fun s1 hs1 => h s1 (List.mem_cons_of_mem _ hs1))]

theorem binsert_ok_exists {V : Type} (NULLK key : Nat) (value : V) (b b1 : List (Nat × V))
    (h : cuckoo.binsert NULLK key value b = .ok b1) :
    ∃ i < b.length, (b.map Prod.fst).getD i NULLK = NULLK ∧ b1 = b.set i (key, value) := by
  induction b generalizing b1 with
  | nil => simp [cuckoo.binsert] at h
  | cons s rest ih =>
    rw [cuckoo.binsert] at h
    by_cases hA : s.1 = NULLK
    · rw [if_pos hA] at h
      simp at h
      exact ⟨0, by simp, by simpa using hA, by simp [← h]⟩
    · rw [if_neg hA] at h
      by_cases hB : s.1 = key
      · rw [if_pos hB] at h; simp at h
      · rw [if_neg hB] at h
        cases hr : cuckoo.binsert NULLK key value rest with
        | ok r =>
          rw [hr] at h
          simp at h
          obtain ⟨i, hi, hslot, hset⟩ := ih r hr
          exact ⟨i + 1, by simpa using hi, by simpa using hslot, by simp [← h, hset]⟩
        | dup => rw [hr] at h; simp at h
        | full => rw [hr] at h; simp at h

theorem bdisplace_eq {V : Type} (key : Nat) (value : V) (idx : Nat) (b : List (Nat × V)) :
    cuckoo.bdisplace key value idx b = (b.getD idx (key, value), b.set idx (key, value)) := by
  induction b generalizing idx with
  | nil => cases idx <;> simp [cuckoo.bdisplace]
  | cons s rest ih =>
    cases idx with
    | zero => simp [cuckoo.bdisplace]
    | succ n => simp [cuckoo.bdisplace, ih n]

/-! ## Multiset bookkeeping for table keys -/

theorem kms_cons (NULLK k : Nat) (l : List Nat) :
    cuckoo.kms NULLK (k :: l) =
      if k ≠ NULLK then k ::ₘ cuckoo.kms NULLK l else cuckoo.kms NULLK l := by
  by_cases h : k = NULLK <;> simp [cuckoo.kms, List.filter_cons, h]

theorem mset_add_singleton (M : Multiset Nat) (a : Nat) : M + {a} = a ::ₘ M := by
  rw [show ({a} : Multiset Nat) = a ::ₘ (0 : Multiset Nat) from rfl, Multiset.add_cons,
    add_zero]

theorem kms_set (NULLK : Nat) (l : List Nat) (i k : Nat) (h : i < l.length) :
    cuckoo.kms NULLK (l.set i k) +
        (if l.getD i NULLK ≠ NULLK then ({l.getD i NULLK} : Multiset Nat) else 0) =
      (if k ≠ NULLK then ({k} : Multiset Nat) else 0) + cuckoo.kms NULLK l := by
  induction l generalizing i with
  | nil => simp at h
  | cons a rest ih =>
    cases i with
    | zero =>
      simp only [List.set_cons_zero, List.getD_cons_zero]
      rw [kms_cons, kms_cons]
      by_cases ha : a = NULLK <;> by_cases hk : k = NULLK <;>
        simp [ha, hk, Multiset.singleton_add, Multiset.cons_add, Multiset.add_cons,
          mset_add_singleton, Multiset.cons_swap]
    | succ n =>
      have hn : n < rest.length := by simpa using h
      simp only [List.set_cons_succ, List.getD_cons_succ]
      rw [kms_cons, kms_cons]
      by_cases ha : a = NULLK
      · simp only [ha, ne_eq, not_true_eq_false, if_false]
        exact ih n hn
      · simp only [ne_eq, ha, not_false_eq_true, if_true]
        rw [Multiset.cons_add, Multiset.add_cons, ih n hn]

theorem sum_map_set {α : Type} (F : α → Multiset Nat) (d : α) (l : List α) (i : Nat)
    (x : α) (h : i < l.length) :
    ((l.set i x).map F).sum + F (l.getD i d) = F x + (l.map F).sum := by
  induction l generalizing i with
  | nil => simp at h
  | cons a rest ih =>
    cases i with
    | zero =>
      simp only [List.set_cons_zero, List.getD_cons_zero, List.map_cons, List.sum_cons]
      rw [add_assoc, add_comm (rest.map F).sum (F a)]
    | succ n =>
      have hn : n < rest.length := by simpa using h
      simp only [List.set_cons_succ, List.getD_cons_succ, List.map_cons, List.sum_cons]
      rw [add_assoc, ih n hn, add_left_comm]

theorem mem_sum_map {α : Type} (F : α → Multiset Nat) (d : α) (l : List α) (a : Nat) :
    a ∈ (l.map F).sum ↔ ∃ i < l.length, a ∈ F (l.getD i d) := by
  induction l with
  | nil => simp
  | cons x rest ih =>
    rw [List.map_cons, List.sum_cons, Multiset.mem_add, ih]
    constructor
    · rintro (h | ⟨i, hi, hmem⟩)
      · exact ⟨0, by simp, by simpa using h⟩
      · exact ⟨i + 1, by simpa using hi, by simpa using hmem⟩
    · rintro ⟨i, hi, hmem⟩
      cases i with
      | zero => exact Or.inl (by simpa using hmem)
      | succ n => exact Or.inr ⟨n, by simpa using hi, by simpa using hmem⟩

theorem mem_kms (NULLK a : Nat) (l : List Nat) :
    a ∈ cuckoo.kms NULLK l ↔ a ∈ l ∧ a ≠ NULLK := by
  simp [cuckoo.kms, List.mem_filter]

theorem tms_set_bucket {V : Type} (NULLK : Nat) (t : cuckoo.Table V) (bi : Nat)
    (b1 : List (Nat × V)) (h : bi < t.buckets.length) :
    cuckoo.tms NULLK { t with buckets := t.buckets.set bi b1 } +
        cuckoo.kms NULLK ((t.buckets.getD bi []).map Prod.fst) =
      cuckoo.kms NULLK (b1.map Prod.fst) + cuckoo.tms NULLK t := by
  have hs := sum_map_set (fun b => cuckoo.kms NULLK (b.map Prod.fst)) [] t.buckets bi b1 h
  simpa [cuckoo.tms] using hs

theorem mem_tms {V : Type} (NULLK a : Nat) (t : cuckoo.Table V) :
    a ∈ cuckoo.tms NULLK t ↔
      ∃ bi < t.buckets.length, a ∈ cuckoo.bkeys t bi ∧ a ≠ NULLK := by
  rw [cuckoo.tms, mem_sum_map _ []]
  constructor
  · rintro ⟨i, hi, hmem⟩
    rw [mem_kms] at hmem
    exact ⟨i, hi, hmem.1, hmem.2⟩
  · rintro ⟨bi, hbi, hmem, hne⟩
    exact ⟨bi, hbi, (mem_kms _ _ _).2 ⟨hmem, hne⟩⟩

theorem bucketAt_set_self {V : Type} (t : cuckoo.Table V) (bi : Nat)
    (b1 : List (Nat × V)) (h : bi < t.buckets.length) :
    cuckoo.bucketAt { t with buckets := t.buckets.set bi b1 } bi = b1 := by
  simp [cuckoo.bucketAt, List.getD_eq_getElem?_getD, List.getElem?_set_self h]

theorem bucketAt_set_ne {V : Type} (t : cuckoo.Table V) (bi bj : Nat)
    (b1 : List (Nat × V)) (h : bi ≠ bj) :
    cuckoo.bucketAt { t with buckets := t.buckets.set bi b1 } bj = cuckoo.bucketAt t bj := by
  simp [cuckoo.bucketAt, List.getD_eq_getElem?_getD, List.getElem?_set_ne h]

theorem bucketAt_length {V : Type} {S : Nat} (t : cuckoo.Table V) (hwf : cuckoo.wf S t)
    (bi : Nat) (h : bi < t.nb) : (cuckoo.bucketAt t bi).length = S := by
  obtain ⟨hnb, hs, hlen, hall⟩ := hwf
  have hlt : bi < t.buckets.length := by omega
  apply hall
  rw [cuckoo.bucketAt, List.getD_eq_getElem?_getD, List.getElem?_eq_getElem hlt]
  exact List.getElem_mem hlt

theorem get_bucket_id_lt {V : Type} (t : cuckoo.Table V) (h : Nat) (hnb : 0 < t.nb) :
    cuckoo.get_bucket_id t h < t.nb :=
  lt_of_le_of_lt Nat.and_le_right (by omega)

theorem get_other_bucket_id_lt {V : Type} (t : cuckoo.Table V) (h k : Nat)
    (hnb : 0 < t.nb) : cuckoo.get_other_bucket_id t h k < t.nb :=
  lt_of_le_of_lt Nat.and_le_right (by omega)

theorem wf_set_bucket {V : Type} {S : Nat} (t : cuckoo.Table V) (bi : Nat)
    (b1 : List (Nat × V)) (hwf : cuckoo.wf S t) (hlen : b1.length = S) :
    cuckoo.wf S { t with buckets := t.buckets.set bi b1 } := by
  obtain ⟨hnb, hs, hl, hall⟩ := hwf
  refine ⟨hnb, hs, by simpa using hl, ?_⟩
  intro b hb
  rcases List.mem_or_eq_of_mem_set hb with hmem | rfl
  · exact hall b hmem
  · exact hlen

theorem getD_set_self1 {α : Type} (l : List α) (i : Nat) (x d : α) (h : i < l.length) :
    (l.set i x).getD i d = x := by
  rw [List.getD_eq_getElem?_getD, List.getElem?_set_self h]
  rfl

theorem getD_set_ne1 {α : Type} (l : List α) (i j : Nat) (x d : α) (h : i ≠ j) :
    (l.set i x).getD j d = l.getD j d := by
  rw [List.getD_eq_getElem?_getD, List.getElem?_set_ne h, ← List.getD_eq_getElem?_getD]

theorem bkeys_length {V : Type} (t : cuckoo.Table V) (bi : Nat) :
    (cuckoo.bkeys t bi).length = (cuckoo.bucketAt t bi).length := by
  simp [cuckoo.bkeys]

theorem bkeys_getD {V : Type} (t : cuckoo.Table V) (bi idx n0 : Nat) (d : Nat × V)
    (h : idx < (cuckoo.bucketAt t bi).length) :
    (cuckoo.bkeys t bi).getD idx n0 = ((cuckoo.bucketAt t bi).getD idx d).1 := by
  rw [cuckoo.bkeys, List.getD_eq_getElem?_getD, List.getElem?_map,
    List.getElem?_eq_getElem h, List.getD_eq_getElem?_getD, List.getElem?_eq_getElem h]
  rfl

theorem tms_eq {V : Type} (NULLK : Nat) (t : cuckoo.Table V) :
    cuckoo.tms NULLK t = (t.buckets.map (fun b => cuckoo.kms NULLK (b.map Prod.fst))).sum :=
  rfl

theorem tms_set_bucket1 {V : Type} (NULLK : Nat) (t t1 : cuckoo.Table V) (bi : Nat)
    (b1 : List (Nat × V)) (h : bi < t.buckets.length)
    (hb : t1.buckets = t.buckets.set bi b1) :
    cuckoo.tms NULLK t1 + cuckoo.kms NULLK ((t.buckets.getD bi []).map Prod.fst) =
      cuckoo.kms NULLK (b1.map Prod.fst) + cuckoo.tms NULLK t := by
  rw [tms_eq, tms_eq, hb]
  exact sum_map_set (fun b => cuckoo.kms NULLK (b.map Prod.fst)) [] t.buckets bi b1 h

theorem home_inv_set {V : Type} {NULLK S : Nat} (t t1 : cuckoo.Table V)
    (hwf : cuckoo.wf S t) (hinv : cuckoo.home_inv NULLK t) (bi idx key : Nat) (value : V)
    (hh : t1.hash = t.hash) (hn : t1.nb = t.nb)
    (hb : t1.buckets = t.buckets.set bi ((cuckoo.bucketAt t bi).set idx (key, value)))
    (hhome : key ≠ NULLK → bi = cuckoo.bucket1 t key ∨ bi = cuckoo.bucket2 t key) :
    cuckoo.home_inv NULLK t1 := by
  intro bj hbj sj hsj hne
  have hcong1 : ∀ x, cuckoo.bucket1 t1 x = cuckoo.bucket1 t x := fun x => by
    simp [cuckoo.bucket1, cuckoo.get_bucket_id, hh, hn]
  have hcong2 : ∀ x, cuckoo.bucket2 t1 x = cuckoo.bucket2 t x := fun x => by
    simp [cuckoo.bucket2, cuckoo.get_other_bucket_id, hh, hn]
  rw [hcong1, hcong2]
  have hbjlen : bj < t.buckets.length := by
    rw [hb] at hbj
    simpa using hbj
  by_cases hbij : bi = bj
  · subst hbij
    have hba : cuckoo.bucketAt t1 bi = (cuckoo.bucketAt t bi).set idx (key, value) := by
      rw [cuckoo.bucketAt, hb]
      rw [List.getD_eq_getElem?_getD, List.getElem?_set_self hbjlen]
      rfl
    have hlen1 : (cuckoo.bkeys t1 bi).length = (cuckoo.bkeys t bi).length := by
      rw [bkeys_length, bkeys_length, hba, List.length_set]
    by_cases hsidx : sj = idx ∧ idx < (cuckoo.bucketAt t bi).length
    · obtain ⟨rfl, hidxlt⟩ := hsidx
      have hslot : (cuckoo.bkeys t1 bi).getD sj NULLK = key := by
        rw [cuckoo.bkeys, hba, List.map_set]
        exact getD_set_self1 _ _ _ _ (by simpa [cuckoo.bkeys] using hidxlt)
      rw [hslot] at hne ⊢
      exact hhome hne
    · have hslot : (cuckoo.bkeys t1 bi).getD sj NULLK = (cuckoo.bkeys t bi).getD sj NULLK := by
        rcases Decidable.not_and_iff_or_not.1 hsidx with hs | hs
        · rw [cuckoo.bkeys, cuckoo.bkeys, hba, List.map_set]
          exact getD_set_ne1 _ _ _ _ _ (fun he => hs he.symm)
        · rw [cuckoo.bkeys, cuckoo.bkeys, hba,
            List.set_eq_of_length_le (by omega)]
      rw [hslot] at hne ⊢
      exact hinv bi hbjlen sj (by rw [← hlen1]; exact hsj) hne
  · have hba : cuckoo.bucketAt t1 bj = cuckoo.bucketAt t bj := by
      rw [cuckoo.bucketAt, cuckoo.bucketAt, hb]
      rw [List.getD_eq_getElem?_getD, List.getElem?_set_ne hbij, ← List.getD_eq_getElem?_getD]
    have hkeq : cuckoo.bkeys t1 bj = cuckoo.bkeys t bj := by
      rw [cuckoo.bkeys, cuckoo.bkeys, hba]
    rw [hkeq] at hne hsj ⊢
    exact hinv bj hbjlen sj hsj hne

theorem wf_set_bucket1 {V : Type} {S : Nat} (t t1 : cuckoo.Table V) (bi : Nat)
    (b1 : List (Nat × V)) (hwf : cuckoo.wf S t) (hn : t1.nb = t.nb)
    (hb : t1.buckets = t.buckets.set bi b1) (hlen : b1.length = S) :
    cuckoo.wf S t1 := by
  obtain ⟨hnb, hs, hl, hall⟩ := hwf
  refine ⟨by omega, hs, by rw [hb, hn]; simpa using hl, ?_⟩
  intro b hb2
  rw [hb] at hb2
  rcases List.mem_or_eq_of_mem_set hb2 with hmem | rfl
  · exact hall b hmem
  · exact hlen

theorem walk_spec {V : Type} (S NULLK : Nat) (fuel : Nat) :
    ∀ (t : cuckoo.Table V) (bid key : Nat) (value : V) (d : Nat),
    cuckoo.wf S t → cuckoo.home_inv NULLK t → key ≠ NULLK →
    (bid = cuckoo.bucket1 t key ∨ bid = cuckoo.bucket2 t key) →
    (∀ s ∈ cuckoo.bucketAt t bid, s.1 ≠ NULLK) →
    (cuckoo.displaceInsertGo S NULLK fuel t bid key value d).1.hash = t.hash ∧
    (cuckoo.displaceInsertGo S NULLK fuel t bid key value d).1.nb = t.nb ∧
    (cuckoo.displaceInsertGo S NULLK fuel t bid key value d).1.sz = t.sz ∧
    cuckoo.wf S (cuckoo.displaceInsertGo S NULLK fuel t bid key value d).1 ∧
    cuckoo.home_inv NULLK (cuckoo.displaceInsertGo S NULLK fuel t bid key value d).1 ∧
    ((cuckoo.displaceInsertGo S NULLK fuel t bid key value d).2 = .ok →
      cuckoo.tms NULLK (cuckoo.displaceInsertGo S NULLK fuel t bid key value d).1 =
        key ::ₘ cuckoo.tms NULLK t) ∧
    ((cuckoo.displaceInsertGo S NULLK fuel t bid key value d).2 = .depthFail →
      ∃ lost, lost ≠ NULLK ∧
        lost ::ₘ cuckoo.tms NULLK (cuckoo.displaceInsertGo S NULLK fuel t bid key value d).1 =
          key ::ₘ cuckoo.tms NULLK t) := by
  induction fuel with
  | zero =>
    intro t bid key value d hwf hinv hk hhome hfull
    exact ⟨rfl, rfl, rfl, hwf, hinv, fun h => by simp [cuckoo.displaceInsertGo] at h,
      fun _ => ⟨key, hk, rfl⟩⟩
  | succ fuel ih =>
    intro t bid key value d hwf hinv hk hhome hfull
    by_cases hd : cuckoo.MAX_INSERT_DEPTH ≤ d
    · have hgo : cuckoo.displaceInsertGo S NULLK (fuel + 1) t bid key value d =
          (t, .depthFail) := by
        rw [cuckoo.displaceInsertGo, if_pos hd]
      rw [hgo]
      exact ⟨rfl, rfl, rfl, hwf, hinv, fun h => by simp at h, fun _ => ⟨key, hk, rfl⟩⟩
    · have hnb0 : 0 < t.nb := hwf.1
      have hS0 : 0 < S := hwf.2.1
      have hblen : t.buckets.length = t.nb := hwf.2.2.1
      have hbid : bid < t.nb := by
        rcases hhome with h | h
        · rw [h]; exact get_bucket_id_lt t _ hnb0
        · rw [h]; exact get_other_bucket_id_lt t _ _ hnb0
      set c := (t.ctr + 1) % 2 ^ 64 with hc
      set idx := c &&& (S - 1) with hidx
      set b := cuckoo.bucketAt t bid with hbdef
      set e := b.getD idx (key, value) with he
      set t2 : cuckoo.Table V :=
        { t with ctr := c, buckets := t.buckets.set bid (b.set idx (key, value)) } with ht2
      set nxt := if cuckoo.get_bucket_id t2 (t2.hash e.1) = bid
        then cuckoo.get_other_bucket_id t2 (t2.hash e.1) e.1
        else cuckoo.get_bucket_id t2 (t2.hash e.1) with hnxt
      have hgo : cuckoo.displaceInsertGo S NULLK (fuel + 1) t bid key value d =
          (match cuckoo.binsert NULLK e.1 e.2 (cuckoo.bucketAt t2 nxt) with
           | .ok b1 => ({ t2 with buckets := t2.buckets.set nxt b1 }, .ok)
           | .dup => (t2, .dup)
           | .full => cuckoo.displaceInsertGo S NULLK fuel t2 nxt e.1 e.2 (d + 1)) := by
        rw [cuckoo.displaceInsertGo, if_neg hd]
        simp only [bdisplace_eq]
        rfl
      have hblenS : b.length = S := by rw [hbdef]; exact bucketAt_length t hwf bid hbid
      have hidxlt : idx < b.length := by
        rw [hblenS]
        exact lt_of_le_of_lt Nat.and_le_right (by omega)
      have hmem_e : e ∈ b := by
        rw [he, List.getD_eq_getElem?_getD, List.getElem?_eq_getElem hidxlt]
        exact List.getElem_mem hidxlt
      have he1 : e.1 ≠ NULLK := by
        apply hfull e
        rw [hbdef] at hmem_e
        exact hmem_e
      have hwf2 : cuckoo.wf S t2 :=
        wf_set_bucket1 t t2 bid (b.set idx (key, value)) hwf rfl rfl
          (by rw [List.length_set]; exact hblenS)
      have hinv2 : cuckoo.home_inv NULLK t2 :=
        home_inv_set t t2 hwf hinv bid idx key value rfl rfl rfl (fun _ => hhome)
      have hbid_home : bid = cuckoo.bucket1 t e.1 ∨ bid = cuckoo.bucket2 t e.1 := by
        have hsj : idx < (cuckoo.bkeys t bid).length := by
          rw [bkeys_length, ← hbdef]
          exact hidxlt
        have hslot : (cuckoo.bkeys t bid).getD idx NULLK = e.1 := by
          rw [bkeys_getD t bid idx NULLK (key, value) (by rw [← hbdef]; exact hidxlt),
            ← hbdef, ← he]
        have hres := hinv bid (by rw [hblen]; exact hbid) idx hsj (by rw [hslot]; exact he1)
        rw [hslot] at hres
        exact hres
      have hnxt_home : nxt = cuckoo.bucket1 t2 e.1 ∨ nxt = cuckoo.bucket2 t2 e.1 := by
        rw [hnxt]
        by_cases hcase : cuckoo.get_bucket_id t2 (t2.hash e.1) = bid
        · rw [if_pos hcase]
          right
          rfl
        · rw [if_neg hcase]
          left
          rfl
      have hnxtlt : nxt < t.nb := by
        rw [hnxt]
        split
        · exact get_other_bucket_id_lt t2 _ _ hnb0
        · exact get_bucket_id_lt t2 _ hnb0
      have htms2 : e.1 ::ₘ cuckoo.tms NULLK t2 = key ::ₘ cuckoo.tms NULLK t := by
        have hset1 := tms_set_bucket1 NULLK t t2 bid (b.set idx (key, value))
          (by rw [hblen]; exact hbid) rfl
        have hold : (t.buckets.getD bid []).map Prod.fst = b.map Prod.fst := by
          rw [hbdef]
          rfl
        have hks := kms_set NULLK (b.map Prod.fst) idx key
          (by rw [List.length_map]; exact hidxlt)
        have hslot2 : (b.map Prod.fst).getD idx NULLK = e.1 := by
          rw [List.getD_eq_getElem?_getD, List.getElem?_map, List.getElem?_eq_getElem hidxlt,
            he, List.getD_eq_getElem?_getD, List.getElem?_eq_getElem hidxlt]
          rfl
        rw [hslot2, if_pos he1, if_pos hk] at hks
        have hmapset : (b.set idx (key, value)).map Prod.fst =
            (b.map Prod.fst).set idx key := by
          simp [List.map_set]
        rw [hold, hmapset] at hset1
        have h4 : (cuckoo.tms NULLK t2 + {e.1}) + cuckoo.kms NULLK (b.map Prod.fst) =
            ({key} + cuckoo.tms NULLK t) + cuckoo.kms NULLK (b.map Prod.fst) := by
          calc (cuckoo.tms NULLK t2 + {e.1}) + cuckoo.kms NULLK (b.map Prod.fst)
              = (cuckoo.tms NULLK t2 + cuckoo.kms NULLK (b.map Prod.fst)) + {e.1} := by
                rw [add_right_comm]
            _ = (cuckoo.kms NULLK ((b.map Prod.fst).set idx key) + cuckoo.tms NULLK t) +
                  ({e.1} : Multiset Nat) := by rw [hset1]
            _ = (cuckoo.kms NULLK ((b.map Prod.fst).set idx key) + {e.1}) +
                  cuckoo.tms NULLK t := by rw [add_right_comm]
            _ = ({key} + cuckoo.kms NULLK (b.map Prod.fst)) + cuckoo.tms NULLK t := by
                rw [hks]
            _ = ({key} + cuckoo.tms NULLK t) + cuckoo.kms NULLK (b.map Prod.fst) := by
                rw [add_assoc, add_comm (cuckoo.kms NULLK (b.map Prod.fst))
                  (cuckoo.tms NULLK t), ← add_assoc]
        have h5 := add_right_cancel h4
        rw [mset_add_singleton, Multiset.singleton_add] at h5
        exact h5
      rw [hgo]
      cases hins : cuckoo.binsert NULLK e.1 e.2 (cuckoo.bucketAt t2 nxt) with
      | ok b1 =>
        obtain ⟨i, hilt, hempty, hb1⟩ := binsert_ok_exists NULLK e.1 e.2 _ b1 hins
        subst hb1
        have hnxtlt2 : nxt < t2.buckets.length := by
          rw [hwf2.2.2.1]
          exact hnxtlt
        have hwf3 : cuckoo.wf S
            ({ t2 with buckets :=
              t2.buckets.set nxt ((cuckoo.bucketAt t2 nxt).set i (e.1, e.2)) }) :=
          wf_set_bucket1 t2 _ nxt _ hwf2 rfl rfl
            (by rw [List.length_set]; exact bucketAt_length t2 hwf2 nxt hnxtlt)
        have hinv3 : cuckoo.home_inv NULLK
            ({ t2 with buckets :=
              t2.buckets.set nxt ((cuckoo.bucketAt t2 nxt).set i (e.1, e.2)) }) :=
          home_inv_set t2 _ hwf2 hinv2 nxt i e.1 e.2 rfl rfl rfl (fun _ => hnxt_home)
        have htms3 : cuckoo.tms NULLK
            ({ t2 with buckets :=
              t2.buckets.set nxt ((cuckoo.bucketAt t2 nxt).set i (e.1, e.2)) } :
              cuckoo.Table V) = e.1 ::ₘ cuckoo.tms NULLK t2 := by
          have hset1 := tms_set_bucket1 NULLK t2
            ({ t2 with buckets :=
              t2.buckets.set nxt ((cuckoo.bucketAt t2 nxt).set i (e.1, e.2)) })
            nxt ((cuckoo.bucketAt t2 nxt).set i (e.1, e.2)) hnxtlt2 rfl
          have hks := kms_set NULLK ((cuckoo.bucketAt t2 nxt).map Prod.fst) i e.1
            (by rw [List.length_map]; exact hilt)
          rw [hempty, if_neg (by simp), if_pos he1, add_zero] at hks
          have hmapset : ((cuckoo.bucketAt t2 nxt).set i (e.1, e.2)).map Prod.fst =
              ((cuckoo.bucketAt t2 nxt).map Prod.fst).set i e.1 := by
            simp [List.map_set]
          have hold : (t2.buckets.getD nxt []).map Prod.fst =
              (cuckoo.bucketAt t2 nxt).map Prod.fst := rfl
          rw [hold, hmapset, hks] at hset1
          have h6 : ({e.1} + cuckoo.kms NULLK ((cuckoo.bucketAt t2 nxt).map Prod.fst)) +
              cuckoo.tms NULLK t2 =
              (e.1 ::ₘ cuckoo.tms NULLK t2) +
                cuckoo.kms NULLK ((cuckoo.bucketAt t2 nxt).map Prod.fst) := by
            rw [Multiset.singleton_add, Multiset.cons_add, Multiset.cons_add]
            rw [add_comm (cuckoo.kms NULLK ((cuckoo.bucketAt t2 nxt).map Prod.fst))
              (cuckoo.tms NULLK t2)]
          rw [h6] at hset1
          exact add_right_cancel hset1
        refine ⟨rfl, rfl, rfl, hwf3, hinv3, ?_, ?_⟩
        · intro _
          rw [htms3]
          exact htms2
        · intro hcontra
          simp at hcontra
      | dup =>
        exact ⟨rfl, rfl, rfl, hwf2, hinv2, fun h => by simp at h, fun h => by simp at h⟩
      | full =>
        have hfull2 : ∀ s ∈ cuckoo.bucketAt t2 nxt, s.1 ≠ NULLK := fun s hs =>
          ((binsert_full_iff NULLK e.1 e.2 _).1 hins s hs).1
        obtain ⟨ihh, ihn, ihs, ihwf, ihinv, ihok, ihfail⟩ :=
          ih t2 nxt e.1 e.2 (d + 1) hwf2 hinv2 he1 hnxt_home hfull2
        refine ⟨ihh, ihn, ihs, ihwf, ihinv, ?_, ?_⟩
        · intro h
          rw [ihok h]
          exact htms2
        · intro h
          obtain ⟨lost, hl, heq⟩ := ihfail h
          refine ⟨lost, hl, ?_⟩
          rw [heq]
          exact htms2

theorem tms_insert_empty {V : Type} (NULLK : Nat) (t : cuckoo.Table V) (bi i key : Nat)
    (value : V) (hbi : bi < t.buckets.length) (hi : i < (cuckoo.bucketAt t bi).length)
    (hempty : ((cuckoo.bucketAt t bi).map Prod.fst).getD i NULLK = NULLK)
    (hk : key ≠ NULLK) :
    cuckoo.tms NULLK
        ({ t with buckets := t.buckets.set bi ((cuckoo.bucketAt t bi).set i (key, value)) } :
          cuckoo.Table V) =
      key ::ₘ cuckoo.tms NULLK t := by
  have hset1 := tms_set_bucket1 NULLK t
    ({ t with buckets := t.buckets.set bi ((cuckoo.bucketAt t bi).set i (key, value)) })
    bi ((cuckoo.bucketAt t bi).set i (key, value)) hbi rfl
  have hks := kms_set NULLK ((cuckoo.bucketAt t bi).map Prod.fst) i key
    (by rw [List.length_map]; exact hi)
  rw [hempty, if_neg (by simp), if_pos hk, add_zero] at hks
  have hmapset : ((cuckoo.bucketAt t bi).set i (key, value)).map Prod.fst =
      ((cuckoo.bucketAt t bi).map Prod.fst).set i key := by
    simp [List.map_set]
  have hold : (t.buckets.getD bi []).map Prod.fst =
      (cuckoo.bucketAt t bi).map Prod.fst := rfl
  rw [hold, hmapset, hks] at hset1
  have h6 : ({key} + cuckoo.kms NULLK ((cuckoo.bucketAt t bi).map Prod.fst)) +
      cuckoo.tms NULLK t =
      (key ::ₘ cuckoo.tms NULLK t) +
        cuckoo.kms NULLK ((cuckoo.bucketAt t bi).map Prod.fst) := by
    rw [Multiset.singleton_add, Multiset.cons_add, Multiset.cons_add]
    rw [add_comm (cuckoo.kms NULLK ((cuckoo.bucketAt t bi).map Prod.fst))
      (cuckoo.tms NULLK t)]
  rw [h6] at hset1
  exact add_right_cancel hset1

theorem insert_spec {V : Type} (S NULLK : Nat) (t : cuckoo.Table V) (key : Nat)
    (value : V) (hwf : cuckoo.wf S t) (hinv : cuckoo.home_inv NULLK t)
    (hk : key ≠ NULLK) :
    (cuckoo.Table.insert S NULLK t key value).1.hash = t.hash ∧
    (cuckoo.Table.insert S NULLK t key value).1.nb = t.nb ∧
    (cuckoo.Table.insert S NULLK t key value).1.sz = (t.sz + 1) % 2 ^ 64 ∧
    cuckoo.wf S (cuckoo.Table.insert S NULLK t key value).1 ∧
    cuckoo.home_inv NULLK (cuckoo.Table.insert S NULLK t key value).1 ∧
    ((cuckoo.Table.insert S NULLK t key value).2 = .ok →
      cuckoo.tms NULLK (cuckoo.Table.insert S NULLK t key value).1 =
        key ::ₘ cuckoo.tms NULLK t) ∧
    ((cuckoo.Table.insert S NULLK t key value).2 = .depthFail →
      ∃ lost, lost ≠ NULLK ∧
        lost ::ₘ cuckoo.tms NULLK (cuckoo.Table.insert S NULLK t key value).1 =
          key ::ₘ cuckoo.tms NULLK t) := by
  set t0 : cuckoo.Table V := { t with sz := (t.sz + 1) % 2 ^ 64 } with ht0
  set b1 := cuckoo.get_bucket_id t0 (t0.hash key) with hib1
  set b2 := cuckoo.get_other_bucket_id t0 (t0.hash key) key with hib2
  have hwf0 : cuckoo.wf S t0 := hwf
  have hinv0 : cuckoo.home_inv NULLK t0 := hinv
  have hnb0 : 0 < t0.nb := hwf.1
  have hb1lt : b1 < t0.nb := get_bucket_id_lt t0 _ hnb0
  have hb2lt : b2 < t0.nb := get_other_bucket_id_lt t0 _ _ hnb0
  have hgo : cuckoo.Table.insert S NULLK t key value =
      (match cuckoo.binsert NULLK key value (cuckoo.bucketAt t0 b1) with
       | .ok nb1 => ({ t0 with buckets := t0.buckets.set b1 nb1 }, .ok)
       | .dup => (t0, .dup)
       | .full =>
         match cuckoo.binsert NULLK key value (cuckoo.bucketAt t0 b2) with
         | .ok nb2 => ({ t0 with buckets := t0.buckets.set b2 nb2 }, .ok)
         | .dup => (t0, .dup)
         | .full => cuckoo.displace_insert S NULLK t0 b1 key value 0) := by
    rw [cuckoo.Table.insert]
  rw [hgo]
  cases hins1 : cuckoo.binsert NULLK key value (cuckoo.bucketAt t0 b1) with
  | ok nb1 =>
    obtain ⟨i, hilt, hempty, hb1e⟩ := binsert_ok_exists NULLK key value _ nb1 hins1
    subst hb1e
    have hb1len : b1 < t0.buckets.length := by rw [hwf0.2.2.1]; exact hb1lt
    refine ⟨rfl, rfl, rfl, ?_, ?_, ?_, ?_⟩
    · exact wf_set_bucket1 t0 _ b1 _ hwf0 rfl rfl
        (by rw [List.length_set]; exact bucketAt_length t0 hwf0 b1 hb1lt)
    · exact home_inv_set t0 _ hwf0 hinv0 b1 i key value rfl rfl rfl
        (fun _ => Or.inl rfl)
    · intro _
      exact tms_insert_empty NULLK t0 b1 i key value hb1len hilt hempty hk
    · intro hcontra
      simp at hcontra
  | dup =>
    exact ⟨rfl, rfl, rfl, hwf0, hinv0, fun h => by simp at h, fun h => by simp at h⟩
  | full =>
    cases hins2 : cuckoo.binsert NULLK key value (cuckoo.bucketAt t0 b2) with
    | ok nb2 =>
      obtain ⟨i, hilt, hempty, hb2e⟩ := binsert_ok_exists NULLK key value _ nb2 hins2
      subst hb2e
      have hb2len : b2 < t0.buckets.length := by rw [hwf0.2.2.1]; exact hb2lt
      refine ⟨rfl, rfl, rfl, ?_, ?_, ?_, ?_⟩
      · exact wf_set_bucket1 t0 _ b2 _ hwf0 rfl rfl
          (by rw [List.length_set]; exact bucketAt_length t0 hwf0 b2 hb2lt)
      · exact home_inv_set t0 _ hwf0 hinv0 b2 i key value rfl rfl rfl
          (fun _ => Or.inr rfl)
      · intro _
        exact tms_insert_empty NULLK t0 b2 i key value hb2len hilt hempty hk
      · intro hcontra
        simp at hcontra
    | dup =>
      exact ⟨rfl, rfl, rfl, hwf0, hinv0, fun h => by simp at h, fun h => by simp at h⟩
    | full =>
      have hfull1 : ∀ s ∈ cuckoo.bucketAt t0 b1, s.1 ≠ NULLK := fun s hs =>
        ((binsert_full_iff NULLK key value _).1 hins1 s hs).1
      exact walk_spec S NULLK (cuckoo.MAX_INSERT_DEPTH - 0) t0 b1 key value 0
        hwf0 hinv0 hk (Or.inl rfl) hfull1

theorem bucket1_congr {V : Type} (t t1 : cuckoo.Table V) (hh : t1.hash = t.hash)
    (hn : t1.nb = t.nb) (x : Nat) : cuckoo.bucket1 t1 x = cuckoo.bucket1 t x := by
  simp [cuckoo.bucket1, cuckoo.get_bucket_id, hh, hn]

theorem bucket2_congr {V : Type} (t t1 : cuckoo.Table V) (hh : t1.hash = t.hash)
    (hn : t1.nb = t.nb) (x : Nat) : cuckoo.bucket2 t1 x = cuckoo.bucket2 t x := by
  simp [cuckoo.bucket2, cuckoo.get_other_bucket_id, hh, hn]

theorem find_some_of_mem (t : cuckoo.Table Nat)
    (hwf : cuckoo.wf cuckoo.SLOTS_PER_BUCKET t)
    (hinv : cuckoo.home_inv cuckoo.NULL_KEY t) (k : Nat) (hk : k ≠ cuckoo.NULL_KEY)
    (hmem : k ∈ cuckoo.tms cuckoo.NULL_KEY t) :
    ∃ c : Nat × Nat, cuckoo.find t k = some c ∧ c.1 < t.buckets.length ∧
      c.2 < (cuckoo.bucketAt t c.1).length ∧
      (cuckoo.bkeys t c.1).getD c.2 cuckoo.NULL_KEY = k := by
  obtain ⟨bi, hbil, hmemk, _⟩ := (mem_tms _ _ _).1 hmem
  obtain ⟨j0, hj0⟩ := kfind_isSome_of_mem k _ hmemk
  obtain ⟨hj0lt, hj0get⟩ := kfind_some_getD k _ j0 cuckoo.NULL_KEY hj0
  have hbihome := hinv bi hbil j0 hj0lt (by rw [hj0get]; exact hk)
  rw [hj0get] at hbihome
  have hnb0 : 0 < t.nb := hwf.1
  have hlen1 : (cuckoo.bkeys t (cuckoo.get_bucket_id t (t.hash k))).length = 4 := by
    rw [bkeys_length]
    exact bucketAt_length t hwf _ (get_bucket_id_lt t _ hnb0)
  have hlen2 : (cuckoo.bkeys t (cuckoo.get_other_bucket_id t (t.hash k) k)).length = 4 := by
    rw [bkeys_length]
    exact bucketAt_length t hwf _ (get_other_bucket_id_lt t _ _ hnb0)
  simp only [cuckoo.find]
  rw [find_simd4_eq_kfind _ _ hlen1]
  cases h1 : cuckoo.kfind k (cuckoo.bkeys t (cuckoo.get_bucket_id t (t.hash k))) with
  | some i =>
    obtain ⟨hilt, higet⟩ := kfind_some_getD k _ i cuckoo.NULL_KEY h1
    refine ⟨(cuckoo.get_bucket_id t (t.hash k), i), rfl, ?_, ?_, higet⟩
    · rw [hwf.2.2.1]
      exact get_bucket_id_lt t _ hnb0
    · rw [← bkeys_length]
      exact hilt
  | none =>
    have hnotb1 : k ∉ cuckoo.bkeys t (cuckoo.get_bucket_id t (t.hash k)) :=
      (kfind_eq_none_iff _ _).1 h1
    have hbib2 : bi = cuckoo.bucket2 t k := by
      rcases hbihome with hb | hb
      · exfalso
        rw [hb] at hmemk
        exact hnotb1 hmemk
      · exact hb
    rw [find_simd4_eq_kfind _ _ hlen2]
    have hmem2 : k ∈ cuckoo.bkeys t (cuckoo.get_other_bucket_id t (t.hash k) k) := by
      rw [hbib2] at hmemk
      exact hmemk
    obtain ⟨j, hj⟩ := kfind_isSome_of_mem k _ hmem2
    obtain ⟨hjlt, hjget⟩ := kfind_some_getD k _ j cuckoo.NULL_KEY hj
    rw [hj]
    refine ⟨(cuckoo.get_other_bucket_id t (t.hash k) k, j), rfl, ?_, ?_, hjget⟩
    · rw [hwf.2.2.1]
      exact get_other_bucket_id_lt t _ _ hnb0
    · rw [← bkeys_length]
      exact hjlt

theorem find_none_of_not_mem (t : cuckoo.Table Nat)
    (hwf : cuckoo.wf cuckoo.SLOTS_PER_BUCKET t) (k : Nat) (hk : k ≠ cuckoo.NULL_KEY)
    (hnot : k ∉ cuckoo.tms cuckoo.NULL_KEY t) : cuckoo.find t k = none := by
  have hnb0 : 0 < t.nb := hwf.1
  have hnm : ∀ bi, bi < t.buckets.length → k ∉ cuckoo.bkeys t bi := by
    intro bi hbi hmem
    exact hnot ((mem_tms _ _ _).2 ⟨bi, hbi, hmem, hk⟩)
  have hlen1 : (cuckoo.bkeys t (cuckoo.get_bucket_id t (t.hash k))).length = 4 := by
    rw [bkeys_length]
    exact bucketAt_length t hwf _ (get_bucket_id_lt t _ hnb0)
  have hlen2 : (cuckoo.bkeys t (cuckoo.get_other_bucket_id t (t.hash k) k)).length = 4 := by
    rw [bkeys_length]
    exact bucketAt_length t hwf _ (get_other_bucket_id_lt t _ _ hnb0)
  simp only [cuckoo.find]
  rw [find_simd4_eq_kfind _ _ hlen1,
    (kfind_eq_none_iff _ _).2
      (hnm _ (by rw [hwf.2.2.1]; exact get_bucket_id_lt t _ hnb0))]
  rw [find_simd4_eq_kfind _ _ hlen2,
    (kfind_eq_none_iff _ _).2
      (hnm _ (by rw [hwf.2.2.1]; exact get_other_bucket_id_lt t _ _ hnb0))]
  rfl

theorem erase_spec {V : Type} (S NULLK : Nat) (NULLV : V) (t : cuckoo.Table V)
    (c : Nat × Nat) (k : Nat) (hwf : cuckoo.wf S t) (hc1 : c.1 < t.buckets.length)
    (hc2 : c.2 < (cuckoo.bucketAt t c.1).length)
    (hslot : (cuckoo.bkeys t c.1).getD c.2 NULLK = k) (hk : k ≠ NULLK) :
    cuckoo.wf S (cuckoo.Table.erase NULLK NULLV t c) ∧
      k ::ₘ cuckoo.tms NULLK (cuckoo.Table.erase NULLK NULLV t c) =
        cuckoo.tms NULLK t := by
  have hc1nb : c.1 < t.nb := by rw [← hwf.2.2.1]; exact hc1
  constructor
  · exact wf_set_bucket1 t _ c.1 ((cuckoo.bucketAt t c.1).set c.2 (NULLK, NULLV)) hwf rfl rfl
      (by rw [List.length_set]; exact bucketAt_length t hwf c.1 hc1nb)
  · have hset1 := tms_set_bucket1 NULLK t (cuckoo.Table.erase NULLK NULLV t c) c.1
      ((cuckoo.bucketAt t c.1).set c.2 (NULLK, NULLV)) hc1 rfl
    have hks := kms_set NULLK ((cuckoo.bucketAt t c.1).map Prod.fst) c.2 NULLK
      (by rw [List.length_map]; exact hc2)
    rw [show ((cuckoo.bucketAt t c.1).map Prod.fst).getD c.2 NULLK = k from hslot,
      if_pos hk, if_neg (by simp)] at hks
    rw [zero_add] at hks
    have hmapset : ((cuckoo.bucketAt t c.1).set c.2 (NULLK, NULLV)).map Prod.fst =
        ((cuckoo.bucketAt t c.1).map Prod.fst).set c.2 NULLK := by
      simp [List.map_set]
    have hold : (t.buckets.getD c.1 []).map Prod.fst =
        (cuckoo.bucketAt t c.1).map Prod.fst := rfl
    rw [hold, hmapset] at hset1
    have h4 : (cuckoo.tms NULLK (cuckoo.Table.erase NULLK NULLV t c) + {k}) +
        cuckoo.kms NULLK ((cuckoo.bucketAt t c.1).map Prod.fst) =
        cuckoo.tms NULLK t + cuckoo.kms NULLK ((cuckoo.bucketAt t c.1).map Prod.fst) := by
      calc (cuckoo.tms NULLK (cuckoo.Table.erase NULLK NULLV t c) + {k}) +
          cuckoo.kms NULLK ((cuckoo.bucketAt t c.1).map Prod.fst)
          = (cuckoo.tms NULLK (cuckoo.Table.erase NULLK NULLV t c) +
              cuckoo.kms NULLK ((cuckoo.bucketAt t c.1).map Prod.fst)) + {k} := by
            rw [add_right_comm]
        _ = (cuckoo.kms NULLK
              (((cuckoo.bucketAt t c.1).map Prod.fst).set c.2 NULLK) +
              cuckoo.tms NULLK t) + ({k} : Multiset Nat) := by rw [hset1]
        _ = (cuckoo.kms NULLK
              (((cuckoo.bucketAt t c.1).map Prod.fst).set c.2 NULLK) + {k}) +
              cuckoo.tms NULLK t := by rw [add_right_comm]
        _ = cuckoo.kms NULLK ((cuckoo.bucketAt t c.1).map Prod.fst) +
              cuckoo.tms NULLK t := by rw [hks]
        _ = cuckoo.tms NULLK t +
              cuckoo.kms NULLK ((cuckoo.bucketAt t c.1).map Prod.fst) := by
            rw [add_comm]
    have h5 := add_right_cancel h4
    rw [mset_add_singleton] at h5
    exact h5

/-! ## Claim C1: successful insert preserves the home-bucket invariant -/

/-- C1.  After every successful `insert` on the map variant (including
inserts that ran the displacement walk), the home-bucket invariant
holds: every occupied slot's key lies in one of its two home buckets;
the caller's key occupies a slot in one of its home buckets; and the net
effect on the stored keys is exactly the addition of one copy of the
caller's key (every key displaced during the walk is still stored — in a
home bucket, by the invariant — and no other stored key appeared or
disappeared, which is the observable content of "all other slots are
untouched"). -/
theorem C1_insert_preserves_invariants (t : cuckoo.Table Nat) (key value : Nat)
    (hwf : cuckoo.wf cuckoo.SLOTS_PER_BUCKET t)
    (hinv : cuckoo.home_inv cuckoo.NULL_KEY t) (hk : key ≠ cuckoo.NULL_KEY)
    (hok : (cuckoo.insertM t key value).2 = .ok) :
    cuckoo.home_inv cuckoo.NULL_KEY (cuckoo.insertM t key value).1 ∧
    cuckoo.tms cuckoo.NULL_KEY (cuckoo.insertM t key value).1 =
      key ::ₘ cuckoo.tms cuckoo.NULL_KEY t ∧
    ∃ bi si, (bi = cuckoo.bucket1 t key ∨ bi = cuckoo.bucket2 t key) ∧
      si < (cuckoo.bkeys (cuckoo.insertM t key value).1 bi).length ∧
      (cuckoo.bkeys (cuckoo.insertM t key value).1 bi).getD si cuckoo.NULL_KEY = key := by
  obtain ⟨hh, hn, _, hwf1, hinv1, hok1, _⟩ :=
    insert_spec cuckoo.SLOTS_PER_BUCKET cuckoo.NULL_KEY t key value hwf hinv hk
  rw [show cuckoo.Table.insert cuckoo.SLOTS_PER_BUCKET cuckoo.NULL_KEY t key value =
    cuckoo.insertM t key value from rfl] at hh hn hwf1 hinv1 hok1
  have htms := hok1 hok
  refine ⟨hinv1, htms, ?_⟩
  have hmem : key ∈ cuckoo.tms cuckoo.NULL_KEY (cuckoo.insertM t key value).1 := by
    rw [htms]
    exact Multiset.mem_cons_self _ _
  obtain ⟨bi, hbil, hmemk, _⟩ := (mem_tms _ _ _).1 hmem
  obtain ⟨si, hsi⟩ := kfind_isSome_of_mem key _ hmemk
  obtain ⟨hsilt, hsiget⟩ := kfind_some_getD key _ si cuckoo.NULL_KEY hsi
  have hhome := hinv1 bi hbil si hsilt (by rw [hsiget]; exact hk)
  rw [hsiget] at hhome
  rw [bucket1_congr t _ hh hn, bucket2_congr t _ hh hn] at hhome
  exact ⟨bi, si, hhome, hsilt, hsiget⟩

/-- Witness for C1: inserting key 7 (value 3) into the empty one-bucket
table succeeds; the invariant conclusions hold at that state. -/
theorem C1_witness :
    cuckoo.home_inv cuckoo.NULL_KEY (cuckoo.insertM tEmpty1 7 3).1 ∧
    cuckoo.tms cuckoo.NULL_KEY (cuckoo.insertM tEmpty1 7 3).1 =
      7 ::ₘ cuckoo.tms cuckoo.NULL_KEY tEmpty1 ∧
    ∃ bi si, (bi = cuckoo.bucket1 tEmpty1 7 ∨ bi = cuckoo.bucket2 tEmpty1 7) ∧
      si < (cuckoo.bkeys (cuckoo.insertM tEmpty1 7 3).1 bi).length ∧
      (cuckoo.bkeys (cuckoo.insertM tEmpty1 7 3).1 bi).getD si cuckoo.NULL_KEY = 7 :=
  C1_insert_preserves_invariants tEmpty1 7 3
    (by unfold cuckoo.wf; decide) (by unfold cuckoo.home_inv; decide)
    (by decide) (by decide)

/-! ## Claim C5: behaviour when the displacement walk hits the depth cap -/

/-- Counterexample to C5 as stated.  Insert key 5 into a full one-bucket
map table (keys 1..4; with one bucket, both home buckets of every key
coincide).  The walk churns in that bucket for 256 displacements and
throws — but, contrary to the claim, the caller's key 5 IS installed in
the final table state, and the previously present key 2 (the key being
carried when the cap was reached) is lost. -/
theorem C5_counterexample :
    (cuckoo.insertM tFull1 5 0).2 = .depthFail ∧
    5 ∈ cuckoo.keyList cuckoo.NULL_KEY (cuckoo.insertM tFull1 5 0).1 ∧
    2 ∉ cuckoo.keyList cuckoo.NULL_KEY (cuckoo.insertM tFull1 5 0).1 := by
  refine ⟨by decide, by decide, by decide⟩

/-- C5, amended.  When the displacement walk exceeds the depth cap,
`insert` fails with an error, `sz` was incremented by one (with `size_t`
wrap), the home-bucket invariant still holds for every occupied slot,
and the stored keys are the original ones plus the caller's key minus
exactly one non-sentinel key — the key carried when the cap was hit
(generally a previously present key, while the caller's key remains
installed).  Conjuncts: map variant, then set variant. -/
theorem C5_depth_cap_amended :
    (∀ (t : cuckoo.Table Nat) (key value : Nat),
      cuckoo.wf cuckoo.SLOTS_PER_BUCKET t → cuckoo.home_inv cuckoo.NULL_KEY t →
      key ≠ cuckoo.NULL_KEY → (cuckoo.insertM t key value).2 = .depthFail →
      cuckoo.home_inv cuckoo.NULL_KEY (cuckoo.insertM t key value).1 ∧
      (cuckoo.insertM t key value).1.sz = (t.sz + 1) % 2 ^ 64 ∧
      ∃ lost, lost ≠ cuckoo.NULL_KEY ∧
        lost ::ₘ cuckoo.tms cuckoo.NULL_KEY (cuckoo.insertM t key value).1 =
          key ::ₘ cuckoo.tms cuckoo.NULL_KEY t) ∧
    (∀ (t : cuckoo_set.Table) (key : Nat),
      cuckoo.wf cuckoo_set.SLOTS_PER_BUCKET t → cuckoo.home_inv cuckoo_set.NULL_KEY t →
      key ≠ cuckoo_set.NULL_KEY → (cuckoo_set.insertS t key).2 = .depthFail →
      cuckoo.home_inv cuckoo_set.NULL_KEY (cuckoo_set.insertS t key).1 ∧
      (cuckoo_set.insertS t key).1.sz = (t.sz + 1) % 2 ^ 64 ∧
      ∃ lost, lost ≠ cuckoo_set.NULL_KEY ∧
        lost ::ₘ cuckoo.tms cuckoo_set.NULL_KEY (cuckoo_set.insertS t key).1 =
          key ::ₘ cuckoo.tms cuckoo_set.NULL_KEY t) := by
  constructor
  · intro t key value hwf hinv hk hfail
    obtain ⟨_, _, hs, _, hinv1, _, hfail1⟩ :=
      insert_spec cuckoo.SLOTS_PER_BUCKET cuckoo.NULL_KEY t key value hwf hinv hk
    exact ⟨hinv1, hs, hfail1 hfail⟩
  · intro t key hwf hinv hk hfail
    obtain ⟨_, _, hs, _, hinv1, _, hfail1⟩ :=
      insert_spec cuckoo_set.SLOTS_PER_BUCKET cuckoo_set.NULL_KEY t key () hwf hinv hk
    exact ⟨hinv1, hs, hfail1 hfail⟩

/-- Witness for the amended C5: the depth-cap failure on the full
one-bucket map table keeps the invariant, bumps `sz` to 5, and loses
exactly one key. -/
theorem C5_witness :
    cuckoo.home_inv cuckoo.NULL_KEY (cuckoo.insertM tFull1 5 0).1 ∧
    (cuckoo.insertM tFull1 5 0).1.sz = (tFull1.sz + 1) % 2 ^ 64 ∧
    ∃ lost, lost ≠ cuckoo.NULL_KEY ∧
      lost ::ₘ cuckoo.tms cuckoo.NULL_KEY (cuckoo.insertM tFull1 5 0).1 =
        5 ::ₘ cuckoo.tms cuckoo.NULL_KEY tFull1 :=
  C5_depth_cap_amended.1 tFull1 5 0
    (by unfold cuckoo.wf; decide) (by unfold cuckoo.home_inv; decide)
    (by decide) (by decide)

/-! ## Claim C6: lookups of absent keys -/

/-- Counterexample to C6 as stated.  The claim quantifies over all
representable keys including the reserved sentinel `~0`.  On a freshly
constructed (all-empty) table no key was ever inserted, yet
`find(NULL_KEY)` matches the sentinel stored in the empty slots and
returns a non-null cursor (bucket 0, slot 0) instead of null. -/
theorem C6_counterexample :
    cuckoo.find tEmpty1 cuckoo.NULL_KEY = some (0, 0) := by
  decide

/-- C6, amended.  The sentinel must be excluded: for every non-sentinel
key `k` that is not stored in any slot of the table — which is the state
of affairs for a key never inserted, or erased since its last insert —
`find(k)` returns the null cursor.  (For the sentinel itself the claim
fails: `find(~0)` returns a cursor to an empty slot whenever one of the
two probed buckets has one.) -/
theorem C6_find_absent_amended (t : cuckoo.Table Nat)
    (hwf : cuckoo.wf cuckoo.SLOTS_PER_BUCKET t) (k : Nat) (hk : k ≠ cuckoo.NULL_KEY)
    (habs : ∀ bi < t.buckets.length, k ∉ cuckoo.bkeys t bi) :
    cuckoo.find t k = none := by
  apply find_none_of_not_mem t hwf k hk
  intro hmem
  obtain ⟨bi, hbi, hmemk, _⟩ := (mem_tms _ _ _).1 hmem
  exact habs bi hbi hmemk

/-- Witness for the amended C6: the key 3 is stored nowhere in the
one-bucket table holding only key 5, and `find 3` is null. -/
theorem C6_witness : cuckoo.find tLookup1 3 = none :=
  C6_find_absent_amended tLookup1 (by unfold cuckoo.wf; decide) 3 (by decide) (by decide)

/-! ## Claim C8: insert then erase-found then find yields null -/

/-- C8.  For every map-variant table state satisfying the invariants in
which the non-sentinel key `k` is absent, if `insert(k, v)` succeeds
then `find(k)` on the result is a non-null cursor, and after
`erase(find(k))` a second `find(k)` returns the null cursor. -/
theorem C8_insert_erase_find_null (t : cuckoo.Table Nat) (k v : Nat)
    (hwf : cuckoo.wf cuckoo.SLOTS_PER_BUCKET t)
    (hinv : cuckoo.home_inv cuckoo.NULL_KEY t) (hk : k ≠ cuckoo.NULL_KEY)
    (habs : k ∉ cuckoo.tms cuckoo.NULL_KEY t)
    (hok : (cuckoo.insertM t k v).2 = .ok) :
    ∃ c : Nat × Nat, cuckoo.find (cuckoo.insertM t k v).1 k = some c ∧
      cuckoo.find (cuckoo.eraseM (cuckoo.insertM t k v).1 c) k = none := by
  obtain ⟨hh, hn, _, hwf1, hinv1, hok1, _⟩ :=
    insert_spec cuckoo.SLOTS_PER_BUCKET cuckoo.NULL_KEY t k v hwf hinv hk
  rw [show cuckoo.Table.insert cuckoo.SLOTS_PER_BUCKET cuckoo.NULL_KEY t k v =
    cuckoo.insertM t k v from rfl] at hwf1 hinv1 hok1
  have htms := hok1 hok
  have hmem : k ∈ cuckoo.tms cuckoo.NULL_KEY (cuckoo.insertM t k v).1 := by
    rw [htms]
    exact Multiset.mem_cons_self _ _
  obtain ⟨c, hfind, hc1, hc2, hslot⟩ := find_some_of_mem _ hwf1 hinv1 k hk hmem
  refine ⟨c, hfind, ?_⟩
  obtain ⟨hwf2, htms2⟩ := erase_spec cuckoo.SLOTS_PER_BUCKET cuckoo.NULL_KEY
    cuckoo.NULL_VALUE _ c k hwf1 hc1 hc2 hslot hk
  rw [show cuckoo.Table.erase cuckoo.NULL_KEY cuckoo.NULL_VALUE
    (cuckoo.insertM t k v).1 c = cuckoo.eraseM (cuckoo.insertM t k v).1 c from rfl]
    at hwf2 htms2
  apply find_none_of_not_mem _ hwf2 k hk
  have htms3 : cuckoo.tms cuckoo.NULL_KEY (cuckoo.eraseM (cuckoo.insertM t k v).1 c) =
      cuckoo.tms cuckoo.NULL_KEY t := by
    have hc : k ::ₘ cuckoo.tms cuckoo.NULL_KEY (cuckoo.eraseM (cuckoo.insertM t k v).1 c) =
        k ::ₘ cuckoo.tms cuckoo.NULL_KEY t := by
      rw [htms2, htms]
    exact (Multiset.cons_inj_right _).1 hc
  rw [htms3]
  exact habs

/-- Witness for C8: insert 7 into the empty one-bucket table, erase the
found cursor, and the final lookup is null. -/
theorem C8_witness :
    ∃ c : Nat × Nat, cuckoo.find (cuckoo.insertM tEmpty1 7 3).1 7 = some c ∧
      cuckoo.find (cuckoo.eraseM (cuckoo.insertM tEmpty1 7 3).1 c) 7 = none :=
  C8_insert_erase_find_null tEmpty1 7 3 (by unfold cuckoo.wf; decide)
    (by unfold cuckoo.home_inv; decide) (by decide) (by decide) (by decide)
